import Mathlib

/-!
# countertrak GSI ingest pipeline — verification development

Shallow embedding of the CounterTrak game-state-ingestion pipeline
(`backend/gsi/`): the payload extractor, the per-match processor, the
match manager's routing, the token cache, and the asynchronous
persistence layer, together with theorems settling the specification
claims about them.

Modelling conventions:
* JSON payload sections and fields become `Option`-valued structure
  fields (`payload.get(k)` is `Option.bind` / `Option.getD`).
* Python string truthiness (`if s:` where `s` is `None` or a string)
  is `pyTruthyStr` below.
* Machine side effects on the relational store are explicit state
  passing over a `Store` structure whose insert operations enforce
  the schema's unique and foreign-key constraints (the code relies on
  these constraints: raw INSERTs raise on violation and the exception
  is caught and swallowed, so a violating insert is a no-op).
* `asyncio.create_task` calls (`_handle_match_completion`,
  `_update_round_winner`) are run synchronously at their creation
  point: a deterministic schedule of the event loop.
* Stored round states use value semantics; post-hoc mutation of a
  stored `RoundState` object through Python aliasing is not modelled
  (no claim below depends on the affected fields).
-/

/-- Python truthiness of an optional string: `None` and `""` are falsy. -/
def pyTruthyStr : Option String → Bool
  | none => false
  | some s => s ≠ ""

/-! ## Payload model (the JSON snapshot POSTed by the game client) -/

/-- The `map` section of a GSI payload. -/
structure MapData where
  name : Option String
  mode : Option String
  phase : Option String
  round : Option Int
  team_ct_score : Option Int
  team_t_score : Option Int
deriving DecidableEq, Repr

/-- The `provider` section of a GSI payload. -/
structure ProviderData where
  steamid : Option String
  timestamp : Option Int
deriving DecidableEq, Repr

/-- The `round` section of a GSI payload. -/
structure RoundData where
  phase : Option String
  win_team : Option String
  bomb : Option String
deriving DecidableEq, Repr

/-- One weapon entry in `player.weapons`; `name : none` models a weapon
dict with no `name` key (skipped by `extract_all_weapons`). -/
structure WeaponData where
  name : Option String
  type : Option String
  state : Option String
  ammo_clip : Option Int
  ammo_clip_max : Option Int
  ammo_reserve : Option Int
  paintkit : Option String
deriving DecidableEq, Repr

/-- The `player.state` subsection. -/
structure PlayerStateData where
  health : Option Int
  armor : Option Int
  money : Option Int
  equip_value : Option Int
  round_kills : Option Int
deriving DecidableEq, Repr

/-- The `player.match_stats` subsection. -/
structure MatchStatsData where
  kills : Option Int
  deaths : Option Int
  assists : Option Int
  mvps : Option Int
  score : Option Int
deriving DecidableEq, Repr

/-- The `player` section of a GSI payload.  `weapons` keeps the wire
slot-keyed dictionary as an association list; `none` models a missing
`weapons` key. -/
structure PlayerData where
  steamid : Option String
  name : Option String
  team : Option String
  activity : Option String
  state : Option PlayerStateData
  match_stats : Option MatchStatsData
  weapons : Option (List (String × WeaponData))
deriving DecidableEq, Repr

/-- A GSI snapshot.  A `none` section models an absent JSON key. -/
structure Payload where
  map : Option MapData
  provider : Option ProviderData
  round : Option RoundData
  player : Option PlayerData
deriving DecidableEq, Repr

/-! ## Extracted state dataclasses (`payloadextractor.py`) -/

/-- `MatchState` dataclass. -/
structure MatchState where
  match_id : String
  mode : String
  map_name : String
  phase : String
  round : Int
  team_ct_score : Int
  team_t_score : Int
  timestamp : Int
deriving DecidableEq, Repr

/-- `WeaponState` dataclass. -/
structure WeaponState where
  name : String
  type : String
  state : String
  ammo_clip : Option Int
  ammo_clip_max : Option Int
  ammo_reserve : Option Int
  paintkit : String
  steam_id : Option String
  state_timestamp : Int
deriving DecidableEq, Repr

/-- `RoundState` dataclass. -/
structure RoundState where
  round_number : Int
  phase : String
  win_team : Option String
  bomb_state : Option String
  win_condition : Option String
  timestamp : Int
deriving DecidableEq, Repr

/-- `PlayerState` dataclass. -/
structure PlayerState where
  steam_id : String
  name : String
  team : String
  health : Int
  armor : Int
  money : Int
  equip_value : Int
  round_kills : Int
  match_kills : Int
  match_deaths : Int
  match_assists : Int
  match_mvps : Int
  match_score : Int
  state_timestamp : Int
deriving DecidableEq, Repr

/-! ## `gsi/utils.py` -/

/-- `utils.extract_base_match_id`: `map_name + "_" + game_mode + "_" +
owner_steam_id`, `None` when the `map` or `provider` section is absent. -/
def extract_base_match_id (p : Payload) : Option String :=
  match p.map, p.provider with
  | some m, some pr =>
      some (m.name.getD "unknown_map" ++ "_" ++ m.mode.getD "unknown_mode"
        ++ "_" ++ pr.steamid.getD "unknown_player")
  | _, _ => none

/-! ## Extraction functions (`PayloadExtractor.extract_*`) -/

/-- `PayloadExtractor.extract_match_state`. -/
def extract_match_state (p : Payload) (timestamp : Int) : Option MatchState :=
  match p.map, p.provider with
  | some m, some _ =>
      match extract_base_match_id p with
      | none => none
      | some base =>
          some { match_id := base
                 mode := m.mode.getD "casual"
                 map_name := m.name.getD "unknown_map"
                 phase := m.phase.getD "unknown"
                 round := m.round.getD 0 + 1
                 team_ct_score := m.team_ct_score.getD 0
                 team_t_score := m.team_t_score.getD 0
                 timestamp := timestamp }
  | _, _ => none

/-- `PayloadExtractor.extract_round_state`, including the
win-condition derivation from `(phase, win_team, bomb)`. -/
def extract_round_state (p : Payload) (timestamp : Int) : Option RoundState :=
  match p.round, p.map with
  | some rd, some m =>
      let round_number : Int := m.round.getD 0 + 1
      let phase := rd.phase.getD "unknown"
      let win_team := rd.win_team
      let bomb_state := rd.bomb
      let win_condition : Option String :=
        if phase = "over" ∧ pyTruthyStr win_team then
          if bomb_state = some "exploded" then some "bomb_exploded"
          else if bomb_state = some "defused" then some "bomb_defused"
          else some "elimination"
        else none
      some { round_number := round_number, phase := phase,
             win_team := win_team, bomb_state := bomb_state,
             win_condition := win_condition, timestamp := timestamp }
  | _, _ => none

/-- `PayloadExtractor.extract_weapon_state` for one weapon dict whose
`name` key is present. -/
def extract_weapon_state (w : WeaponData) (nm : String) (timestamp : Int) : WeaponState :=
  { name := nm
    type := w.type.getD "Other"
    state := w.state.getD "unknown"
    ammo_clip := w.ammo_clip
    ammo_clip_max := w.ammo_clip_max
    ammo_reserve := w.ammo_reserve
    paintkit := w.paintkit.getD "default"
    steam_id := none
    state_timestamp := timestamp }

/-- `PayloadExtractor.extract_all_weapons`: slot-keyed map of weapon
states; entries lacking a `name` key are skipped; `steam_id` is set to
`player.steamid` afterwards. -/
def extract_all_weapons (p : Payload) (timestamp : Int) : List (String × WeaponState) :=
  match p.player with
  | none => []
  | some pd =>
      match pd.weapons with
      | none => []
      | some ws =>
          ws.foldr (fun (sw : String × WeaponData) acc =>
            match sw.2.name with
            | none => acc
            | some nm =>
                (sw.1, { extract_weapon_state sw.2 nm timestamp with
                           steam_id := pd.steamid }) :: acc) []

/-- `PayloadExtractor.extract_player_state`. -/
def extract_player_state (p : Payload) (timestamp : Int) : Option PlayerState :=
  match p.player with
  | none => none
  | some pd =>
      match pd.steamid, pd.state with
      | some sid, some st =>
          some { steam_id := sid
                 name := pd.name.getD ("Player_" ++ (sid.drop (sid.length - 4)))
                 team := pd.team.getD "SPEC"
                 health := st.health.getD 0
                 armor := st.armor.getD 0
                 money := st.money.getD 0
                 equip_value := st.equip_value.getD 0
                 round_kills := st.round_kills.getD 0
                 match_kills := ((pd.match_stats.bind (·.kills)).getD 0)
                 match_deaths := ((pd.match_stats.bind (·.deaths)).getD 0)
                 match_assists := ((pd.match_stats.bind (·.assists)).getD 0)
                 match_mvps := ((pd.match_stats.bind (·.mvps)).getD 0)
                 match_score := ((pd.match_stats.bind (·.score)).getD 0)
                 state_timestamp := timestamp }
      | _, _ => none

/-- The wire (0-indexed) round number of a payload as the extractor
reads it: `map_data.get('round', 0)`. -/
def wireRound (p : Payload) : Int :=
  ((p.map.bind (·.round)).getD 0)

/-! ## Claim C4 and C5 support: the spec's win-condition table -/

/-- The win-condition table exactly as claim C4 states it: determined
by the pair `(round.phase, round.bomb)` with the winner only consulted
in the third branch.  (Spec-following definition, for comparison with
the code's `extract_round_state`.) -/
def claimWinCondition (phase : String) (win_team bomb : Option String) : Option String :=
  if phase = "over" ∧ bomb = some "exploded" then some "bomb_exploded"
  else if phase = "over" ∧ bomb = some "defused" then some "bomb_defused"
  else if phase = "over" ∧ pyTruthyStr win_team then some "elimination"
  else none

/-- The actual rule implemented by `extract_round_state`: the
win-condition is null unless the phase is `over` *and* a winner is
known; only then the bomb state selects the condition. -/
def codeWinCondition (phase : String) (win_team bomb : Option String) : Option String :=
  if phase = "over" ∧ pyTruthyStr win_team then
    if bomb = some "exploded" then some "bomb_exploded"
    else if bomb = some "defused" then some "bomb_defused"
    else some "elimination"
  else none

/-- A payload whose round is `over` with the bomb `exploded` but no
winner reported: claim C4's table yields `bomb_exploded`, the code
yields null. -/
def c4Payload : Payload :=
  { map := some { name := some "de_dust2", mode := some "competitive",
                  phase := some "live", round := some 0,
                  team_ct_score := some 0, team_t_score := some 0 }
    provider := some { steamid := some "76561198000000001", timestamp := some 1700000000 }
    round := some { phase := some "over", win_team := none, bomb := some "exploded" }
    player := none }

/-- C4: the claim's win-condition table, keyed on `(phase, bomb)` alone,
disagrees with the code on a payload with `phase = over`,
`bomb = exploded` and no known winner: the code extracts a null
`win_condition` where the claim requires `bomb_exploded`. -/
theorem c4_counterexample :
    ∃ rs : RoundState, extract_round_state c4Payload 1700000000 = some rs ∧
      rs.win_condition = none ∧
      claimWinCondition rs.phase rs.win_team rs.bomb_state = some "bomb_exploded" ∧
      rs.win_condition ≠ claimWinCondition rs.phase rs.win_team rs.bomb_state := by
  refine ⟨_, rfl, ?_, ?_, ?_⟩ <;> decide

/-- C4 (amended): for every payload containing round and map sections,
the extracted `win_condition` is determined by
`(round.phase, round.win_team, round.bomb)`: it is null unless the
phase is `over` and a winner is known, and in that case it is
`bomb_exploded` when the bomb exploded, `bomb_defused` when the bomb
was defused, and `elimination` otherwise. -/
theorem c4_win_condition_amended (p : Payload) (ts : Int) (rs : RoundState)
    (h : extract_round_state p ts = some rs) :
    rs.win_condition = codeWinCondition rs.phase rs.win_team rs.bomb_state := by
  unfold extract_round_state at h
  cases hr : p.round with
  | none => rw [hr] at h; cases h
  | some rd =>
      cases hm : p.map with
      | none => rw [hr, hm] at h; cases h
      | some m =>
          rw [hr, hm] at h
          simp only [Option.some.injEq] at h
          subst h
          simp only [codeWinCondition]

/-- The round state the extractor produces from `c4Payload`. -/
def c4Rs : RoundState :=
  { round_number := 1, phase := "over", win_team := none,
    bomb_state := some "exploded", win_condition := none,
    timestamp := 1700000000 }

/-- Witness for the amended C4 theorem at the concrete payload above. -/
theorem c4_win_condition_amended_witness :
    extract_round_state c4Payload 1700000000 = some c4Rs ∧
      c4Rs.win_condition = codeWinCondition c4Rs.phase c4Rs.win_team c4Rs.bomb_state :=
  ⟨by decide, c4_win_condition_amended c4Payload 1700000000 c4Rs (by decide)⟩

/-- C5: whenever a match state or a round state is extracted from a
payload, the stored round number is the wire (0-indexed) round number
plus one. -/
theorem c5_round_number_one_indexed (p : Payload) (ts : Int) :
    (∀ ms : MatchState, extract_match_state p ts = some ms →
        ms.round = wireRound p + 1) ∧
    (∀ rs : RoundState, extract_round_state p ts = some rs →
        rs.round_number = wireRound p + 1) := by
  constructor
  · intro ms h
    unfold extract_match_state at h
    cases hm : p.map with
    | none => rw [hm] at h; cases h
    | some m =>
        cases hp : p.provider with
        | none => rw [hm, hp] at h; cases h
        | some pr =>
            rw [hm, hp] at h
            unfold extract_base_match_id at h
            rw [hm, hp] at h
            simp only [Option.some.injEq] at h
            subst h
            simp [wireRound, hm]
  · intro rs h
    unfold extract_round_state at h
    cases hr : p.round with
    | none => rw [hr] at h; cases h
    | some rd =>
        cases hm : p.map with
        | none => rw [hr, hm] at h; cases h
        | some m =>
            rw [hr, hm] at h
            simp only [Option.some.injEq] at h
            subst h
            simp [wireRound, hm]

/-- A minimal first-live-round payload with wire round 0. -/
def c5Payload : Payload :=
  { map := some { name := some "de_dust2", mode := some "competitive",
                  phase := some "live", round := some 0,
                  team_ct_score := some 0, team_t_score := some 0 }
    provider := some { steamid := some "76561198000000001", timestamp := some 1700000000 }
    round := some { phase := some "live", win_team := none, bomb := none }
    player := none }

/-- The match state the extractor produces from `c5Payload`. -/
def c5Ms : MatchState :=
  { match_id := "de_dust2_competitive_76561198000000001",
    mode := "competitive", map_name := "de_dust2", phase := "live",
    round := 1, team_ct_score := 0, team_t_score := 0,
    timestamp := 1700000000 }

/-- The round state the extractor produces from `c5Payload`. -/
def c5Rs : RoundState :=
  { round_number := 1, phase := "live", win_team := none,
    bomb_state := none, win_condition := none, timestamp := 1700000000 }

/-- Witness for C5: a payload with wire round 0 yields `round_number = 1`
in both the extracted match state and the extracted round state. -/
theorem c5_round_number_one_indexed_witness :
    wireRound c5Payload = 0 ∧
    extract_match_state c5Payload 1700000000 = some c5Ms ∧
    c5Ms.round = wireRound c5Payload + 1 ∧ c5Ms.round = 1 ∧
    extract_round_state c5Payload 1700000000 = some c5Rs ∧
    c5Rs.round_number = wireRound c5Payload + 1 ∧ c5Rs.round_number = 1 :=
  ⟨by decide, by decide,
   (c5_round_number_one_indexed c5Payload 1700000000).1 c5Ms (by decide),
   by decide, by decide,
   (c5_round_number_one_indexed c5Payload 1700000000).2 c5Rs (by decide),
   by decide⟩

/-! ## `gsi/utils.py`: match-id generation and parsing (claim C10)

Python `str.split('_')` / `'_'.join` are modelled on `List Char`
(`pySplit` / `pyJoin`), matching Python's semantics: splitting the
empty string yields `[""]`, adjacent separators yield empty pieces. -/

/-- Python `s.split(sep)` on a character list. -/
def pySplit (sep : Char) : List Char → List (List Char)
  | [] => [[]]
  | c :: cs =>
      match pySplit sep cs with
      | [] => [[]]
      | h :: t => if c = sep then [] :: h :: t else (c :: h) :: t

/-- Python `sep.join(pieces)` on character lists. -/
def pyJoin (sep : Char) : List (List Char) → List Char
  | [] => []
  | [x] => x
  | x :: y :: ys => x ++ sep :: pyJoin sep (y :: ys)

theorem pySplit_ne_nil (sep : Char) (l : List Char) : pySplit sep l ≠ [] := by
  induction l with
  | nil => simp [pySplit]
  | cons c cs ih =>
      obtain ⟨h', t, h⟩ : ∃ h' t, pySplit sep cs = h' :: t := by
        cases hs : pySplit sep cs with
        | nil => exact absurd hs ih
        | cons a b => exact ⟨a, b, rfl⟩
      simp only [pySplit, h]
      split <;> simp

theorem pySplit_length (sep : Char) (l : List Char) :
    (pySplit sep l).length = l.count sep + 1 := by
  induction l with
  | nil => simp [pySplit]
  | cons c cs ih =>
      obtain ⟨h', t, h⟩ : ∃ h' t, pySplit sep cs = h' :: t := by
        cases hs : pySplit sep cs with
        | nil => exact absurd hs (pySplit_ne_nil sep cs)
        | cons a b => exact ⟨a, b, rfl⟩
      rw [h] at ih
      simp only [pySplit, h, List.count_cons, beq_iff_eq]
      simp only [List.length_cons] at ih
      by_cases hc : c = sep
      · simp only [if_pos hc, List.length_cons]
        omega
      · simp only [if_neg hc, List.length_cons]
        omega

theorem pySplit_no_sep (sep : Char) (l : List Char) (h : ∀ c ∈ l, c ≠ sep) :
    pySplit sep l = [l] := by
  induction l with
  | nil => simp [pySplit]
  | cons c cs ih =>
      have hc : c ≠ sep := h c (List.mem_cons_self c cs)
      have ih' := ih (fun x hx => h x (List.mem_cons_of_mem c hx))
      simp only [pySplit, ih', if_neg hc]

theorem pySplit_append (sep : Char) (a b : List Char) :
    pySplit sep (a ++ sep :: b) = pySplit sep a ++ pySplit sep b := by
  induction a with
  | nil =>
      obtain ⟨h', t, h⟩ : ∃ h' t, pySplit sep b = h' :: t := by
        cases hs : pySplit sep b with
        | nil => exact absurd hs (pySplit_ne_nil sep b)
        | cons x y => exact ⟨x, y, rfl⟩
      simp only [List.nil_append, pySplit, h]
      simp
  | cons c a' ih =>
      obtain ⟨h', t, h⟩ : ∃ h' t, pySplit sep a' = h' :: t := by
        cases hs : pySplit sep a' with
        | nil => exact absurd hs (pySplit_ne_nil sep a')
        | cons x y => exact ⟨x, y, rfl⟩
      simp only [List.cons_append, pySplit, List.append_eq]
      rw [ih, h, List.cons_append]
      by_cases hc : c = sep
      · simp [if_pos hc]
      · simp [if_neg hc]

theorem pyJoin_pySplit (sep : Char) (l : List Char) :
    pyJoin sep (pySplit sep l) = l := by
  induction l with
  | nil => simp [pySplit, pyJoin]
  | cons c cs ih =>
      obtain ⟨h', t, h⟩ : ∃ h' t, pySplit sep cs = h' :: t := by
        cases hs : pySplit sep cs with
        | nil => exact absurd hs (pySplit_ne_nil sep cs)
        | cons x y => exact ⟨x, y, rfl⟩
      rw [h] at ih
      simp only [pySplit, h]
      by_cases hc : c = sep
      · subst hc
        simp only [if_pos rfl, pyJoin]
        rw [List.nil_append, ih]
      · simp only [if_neg hc]
        cases t with
        | nil =>
            simp only [pyJoin] at ih ⊢
            rw [ih]
        | cons t' ts =>
            simp only [pyJoin] at ih ⊢
            rw [List.cons_append, ih]

/-- `utils.generate_match_id`: append `"_" + uuid` to the base id.  The
UUID string is a parameter (the code draws it from `uuid.uuid4()`). -/
def generate_match_id (base_id uuidStr : List Char) : List Char :=
  base_id ++ '_' :: uuidStr

/-- `utils.parse_match_id`: split on `'_'`; with more than three
components, the last is the UUID and the rest re-joined are the base. -/
def parse_match_id (match_id : List Char) : List Char × Option (List Char) :=
  let components := pySplit '_' match_id
  if 3 < components.length then
    (pyJoin '_' components.dropLast, components.getLast?)
  else
    (match_id, none)

/-- C10: for every base id with at least two underscores (as every
`map_mode_steamid` base id produced by `extract_base_match_id` has) and
every appended UUID string (uuid4 strings consist of hex digits and
hyphens, never underscores), `parse_match_id` inverts
`generate_match_id`, returning exactly the base and the UUID. -/
theorem c10_parse_generate_round_trip (base_id uuidStr : List Char)
    (hbase : 2 ≤ base_id.count '_') (huuid : ∀ c ∈ uuidStr, c ≠ '_') :
    parse_match_id (generate_match_id base_id uuidStr) = (base_id, some uuidStr) := by
  unfold parse_match_id generate_match_id
  rw [pySplit_append, pySplit_no_sep '_' uuidStr huuid]
  have hlen : 3 < (pySplit '_' base_id ++ [uuidStr]).length := by
    rw [List.length_append, pySplit_length]
    simp only [List.length_singleton]
    omega
  rw [if_pos hlen]
  have hdrop : (pySplit '_' base_id ++ [uuidStr]).dropLast = pySplit '_' base_id := by
    simp
  have hlast : (pySplit '_' base_id ++ [uuidStr]).getLast? = some uuidStr := by
    simp
  rw [hdrop, hlast, pyJoin_pySplit]

/-- Witness for C10 at a concrete `map_mode_steamid` base id and a
concrete uuid4-shaped string. -/
theorem c10_parse_generate_round_trip_witness :
    2 ≤ ("de_dust2_competitive_76561198000000001".toList.count '_') ∧
    (∀ c ∈ "1b4e28ba-2fa1-11d2-883f-0016d3cca427".toList, c ≠ '_') ∧
    parse_match_id (generate_match_id "de_dust2_competitive_76561198000000001".toList
        "1b4e28ba-2fa1-11d2-883f-0016d3cca427".toList)
      = ("de_dust2_competitive_76561198000000001".toList,
         some "1b4e28ba-2fa1-11d2-883f-0016d3cca427".toList) :=
  ⟨by decide, by decide,
   c10_parse_generate_round_trip _ _ (by decide) (by decide)⟩

/-! ## Token cache (`async_server.py`, claim C9) -/

/-- The in-memory token cache of `async_server.TokenCache`: a mapping
from auth token to steam id plus bookkeeping. -/
structure TokenCache where
  tokens : List (String × String)
  last_refresh : Int
  refresh_interval : Int
  initialized : Bool
deriving DecidableEq, Repr

/-- `token in self.tokens` — membership of a token key in the cache. -/
def TokenCache.hasToken (c : TokenCache) (token : String) : Bool :=
  c.tokens.any (fun kv => kv.1 = token)

/-- `TokenCache.refresh`: reload the mapping from the store.  `fetch`
is the outcome of `self._get_all_tokens()`: `some m` a successful
load of mapping `m`, `none` the query raising (store unreachable).  On
success both the mapping and the refresh time are replaced; the
exception handler only logs, so on failure neither assignment runs. -/
def TokenCache.refresh (c : TokenCache) (fetch : Option (List (String × String)))
    (now : Int) : TokenCache :=
  match fetch with
  | some m => { c with tokens := m, last_refresh := now }
  | none => c

/-- C9: a failed refresh (the token load raises) leaves the cache's
token mapping and last-refresh time exactly as they were, so every
token valid before the failed refresh is still valid after it. -/
theorem c9_refresh_failure_preserves_cache (c : TokenCache) (now : Int) :
    (c.refresh none now).tokens = c.tokens ∧
    (c.refresh none now).last_refresh = c.last_refresh ∧
    (∀ t : String, c.hasToken t = true → (c.refresh none now).hasToken t = true) :=
  ⟨rfl, rfl, fun _ h => h⟩

/-- Witness for C9 at a concrete one-token cache. -/
theorem c9_refresh_failure_preserves_cache_witness :
    (TokenCache.refresh ⟨[("ABCD1234", "76561198000000001")], 100, 600, true⟩ none 200).tokens
        = [("ABCD1234", "76561198000000001")] ∧
    TokenCache.hasToken
        (TokenCache.refresh ⟨[("ABCD1234", "76561198000000001")], 100, 600, true⟩ none 200)
        "ABCD1234" = true :=
  ⟨(c9_refresh_failure_preserves_cache ⟨[("ABCD1234", "76561198000000001")], 100, 600, true⟩ 200).1,
   (c9_refresh_failure_preserves_cache ⟨[("ABCD1234", "76561198000000001")], 100, 600, true⟩ 200).2.2
     "ABCD1234" (by decide)⟩

/-! ## The relational store and the persistence layer
(`django_integration.py` together with the schema of
`apps/matches/models.py`, `apps/stats/models.py`,
`apps/accounts/models.py`)

Each table is a list of rows.  Raw-SQL INSERTs raise on a unique- or
foreign-key violation; the code catches and logs the exception, so a
violating insert is modelled as leaving the table unchanged and
returning falsy.  The batch writers read the accounts / matches /
weapons tables only (never write them), so they are passed to the
table-level steps as fixed parameters. -/

/-- A row of `matches_match`. -/
structure MatchRow where
  match_id : String
  game_mode : String
  map_name : String
  start_timestamp : Int
  end_timestamp : Option Int
  rounds_played : Int
  team_ct_score : Int
  team_t_score : Int
deriving DecidableEq, Repr

/-- A row of `matches_round` (`UNIQUE(match_id, round_number)`). -/
structure RoundRow where
  match_id : String
  round_number : Int
  phase : String
  timestamp : Int
  winning_team : Option String
  win_condition : Option String
deriving DecidableEq, Repr

/-- A row of `stats_playerroundstate`
(`UNIQUE(match_id, round_number, steam_account, state_timestamp)`). -/
structure PlayerRoundStateRow where
  match_id : String
  round_number : Int
  steam_account : String
  health : Int
  armor : Int
  money : Int
  equip_value : Int
  round_kills : Int
  team : String
  state_timestamp : Int
deriving DecidableEq, Repr

/-- A row of `stats_playerweapon`
(`UNIQUE(match_id, round_number, steam_account, weapon, state_timestamp)`). -/
structure PlayerWeaponRow where
  match_id : String
  round_number : Int
  steam_account : String
  weapon_id : Int
  state : String
  ammo_clip : Option Int
  ammo_reserve : Option Int
  paintkit : String
  state_timestamp : Int
deriving DecidableEq, Repr

/-- A row of `stats_playermatchstat` (`UNIQUE(steam_account, match_id)`). -/
structure PlayerMatchStatRow where
  steam_account : String
  match_id : String
  kills : Int
  deaths : Int
  assists : Int
  mvps : Int
  score : Int
deriving DecidableEq, Repr

/-- The relational store.  `accounts` maps `steam_id ↦ auth_token`
(`accounts_steamaccount`); `weapons` maps `name ↦ weapon_id`
(`stats_weapon`, static reference data). -/
structure Store where
  match_rows : List MatchRow
  rounds : List RoundRow
  player_round_states : List PlayerRoundStateRow
  player_weapons : List PlayerWeaponRow
  player_match_stats : List PlayerMatchStatRow
  accounts : List (String × String)
  weapons : List (String × Int)
deriving DecidableEq, Repr

/-- `match_exists`: `SELECT COUNT(*) FROM matches_match WHERE match_id = %s`. -/
def match_exists (s : Store) (mid : String) : Bool :=
  s.match_rows.any (fun r => r.match_id = mid)

/-- `round_exists`. -/
def round_exists (s : Store) (mid : String) (rn : Int) : Bool :=
  s.rounds.any (fun r => r.match_id = mid ∧ r.round_number = rn)

/-- The FK check on `accounts_steamaccount`: a row for this steam id
exists. -/
def account_row_exists (accounts : List (String × String)) (sid : String) : Bool :=
  accounts.any (fun kv => kv.1 = sid)

/-- `ensure_steam_account`: look up the auth token for a steam id; never
creates an account. -/
def ensure_steam_account (accounts : List (String × String)) (sid : String) : Option String :=
  (accounts.find? (fun kv => kv.1 = sid)).map (fun kv => kv.2)

/-- `get_weapon_id_by_name`: `SELECT weapon_id FROM stats_weapon WHERE name = %s`. -/
def get_weapon_id_by_name (weapons : List (String × Int)) (nm : String) : Option Int :=
  (weapons.find? (fun kv => kv.1 = nm)).map (fun kv => kv.2)

/-- `player_round_state_exists`: COUNT over the composite key. -/
def player_round_state_seen (tbl : List PlayerRoundStateRow) (mid : String) (rn : Int)
    (sid : String) (ts : Int) : Bool :=
  tbl.any (fun r => r.match_id = mid ∧ r.round_number = rn ∧
    r.steam_account = sid ∧ r.state_timestamp = ts)

/-- `player_weapon_exists`: COUNT over the composite key. -/
def player_weapon_seen (tbl : List PlayerWeaponRow) (mid : String) (rn : Int)
    (sid : String) (wid : Int) (ts : Int) : Bool :=
  tbl.any (fun r => r.match_id = mid ∧ r.round_number = rn ∧
    r.steam_account = sid ∧ r.weapon_id = wid ∧ r.state_timestamp = ts)

/-- The row built by `_create_player_round_state_sync`'s INSERT. -/
def mkPlayerRoundStateRow (mid : String) (rn : Int) (ps : PlayerState) : PlayerRoundStateRow :=
  { match_id := mid, round_number := rn, steam_account := ps.steam_id,
    health := ps.health, armor := ps.armor, money := ps.money,
    equip_value := ps.equip_value, round_kills := ps.round_kills,
    team := ps.team, state_timestamp := ps.state_timestamp }

/-- The raw INSERT into `stats_playerroundstate`: succeeds only when the
match FK and account FK hold and the composite unique key is free;
otherwise the DB raises and the caller's handler swallows it. -/
def insert_player_round_state (mrows : List MatchRow) (accounts : List (String × String))
    (tbl : List PlayerRoundStateRow) (r : PlayerRoundStateRow) : List PlayerRoundStateRow :=
  if mrows.any (fun m => m.match_id = r.match_id) ∧ account_row_exists accounts r.steam_account ∧
      ¬ player_round_state_seen tbl r.match_id r.round_number r.steam_account r.state_timestamp
  then tbl ++ [r] else tbl

/-- `create_player_round_state`: skip (with log) when
`ensure_steam_account` returns a falsy token, else INSERT. -/
def create_player_round_state (mrows : List MatchRow) (accounts : List (String × String))
    (mid : String) (rn : Int) (tbl : List PlayerRoundStateRow) (ps : PlayerState) :
    List PlayerRoundStateRow :=
  if pyTruthyStr (ensure_steam_account accounts ps.steam_id) then
    insert_player_round_state mrows accounts tbl (mkPlayerRoundStateRow mid rn ps)
  else tbl

/-- One iteration of the `batch_create_player_states` loop: skip when a
row with the same composite key already exists, else create. -/
def batch_player_state_step (mrows : List MatchRow) (accounts : List (String × String))
    (mid : String) (rn : Int) (tbl : List PlayerRoundStateRow) (ps : PlayerState) :
    List PlayerRoundStateRow :=
  if player_round_state_seen tbl mid rn ps.steam_id ps.state_timestamp then tbl
  else create_player_round_state mrows accounts mid rn tbl ps

/-- `batch_create_player_states`. -/
def batch_create_player_states (s : Store) (mid : String) (rn : Int)
    (player_states : List PlayerState) : Store :=
  let tbl := player_states.foldl
    (batch_player_state_step s.match_rows s.accounts mid rn) s.player_round_states
  { s with player_round_states := tbl }

/-- The row built by `_create_player_weapon_states_sync`'s INSERT. -/
def mkPlayerWeaponRow (mid : String) (rn : Int) (sid : String) (wid : Int)
    (w : WeaponState) : PlayerWeaponRow :=
  { match_id := mid, round_number := rn, steam_account := sid, weapon_id := wid,
    state := w.state, ammo_clip := w.ammo_clip, ammo_reserve := w.ammo_reserve,
    paintkit := w.paintkit, state_timestamp := w.state_timestamp }

/-- The raw INSERT into `stats_playerweapon`, constraint-checked as for
player round states. -/
def insert_player_weapon (mrows : List MatchRow) (accounts : List (String × String))
    (tbl : List PlayerWeaponRow) (r : PlayerWeaponRow) : List PlayerWeaponRow :=
  if mrows.any (fun m => m.match_id = r.match_id) ∧ account_row_exists accounts r.steam_account ∧
      ¬ player_weapon_seen tbl r.match_id r.round_number r.steam_account r.weapon_id r.state_timestamp
  then tbl ++ [r] else tbl

/-- One weapon inside `_create_player_weapon_states_sync`: look up the
weapon id by name (unknown weapons are skipped with a log), then INSERT
with the per-weapon exception handler. -/
def create_player_weapon_step (weapons : List (String × Int)) (mrows : List MatchRow)
    (accounts : List (String × String)) (mid : String) (rn : Int) (sid : String)
    (tbl : List PlayerWeaponRow) (w : WeaponState) : List PlayerWeaponRow :=
  match get_weapon_id_by_name weapons w.name with
  | none => tbl
  | some wid => insert_player_weapon mrows accounts tbl (mkPlayerWeaponRow mid rn sid wid w)

/-- `batch_create_player_weapons`' per-weapon pre-check: weapon known
and the composite key not already present. -/
def player_weapon_wanted (weapons : List (String × Int)) (mid : String) (rn : Int)
    (sid : String) (tbl : List PlayerWeaponRow) (w : WeaponState) : Bool :=
  match get_weapon_id_by_name weapons w.name with
  | none => false
  | some wid => ! player_weapon_seen tbl mid rn sid wid w.state_timestamp

/-- One snapshot dictionary inside `batch_create_player_weapons`: filter
to the weapons whose records do not exist yet, then create them via
`create_player_weapon_states`. -/
def batch_weapon_snapshot_step (weapons : List (String × Int)) (mrows : List MatchRow)
    (accounts : List (String × String)) (mid : String) (rn : Int) (sid : String)
    (tbl : List PlayerWeaponRow) (dict : List (String × WeaponState)) : List PlayerWeaponRow :=
  let weapons_to_create := dict.filter (fun sw => player_weapon_wanted weapons mid rn sid tbl sw.2)
  weapons_to_create.foldl
    (fun t sw => create_player_weapon_step weapons mrows accounts mid rn sid t sw.2) tbl

/-- `batch_create_player_weapons`: fold the per-snapshot step over the
weapon-state history; rows are attributed to the owner's steam id. -/
def batch_create_player_weapons (s : Store) (mid : String) (rn : Int) (sid : String)
    (weapon_states_history : List (List (String × WeaponState))) : Store :=
  let tbl := weapon_states_history.foldl
    (batch_weapon_snapshot_step s.weapons s.match_rows s.accounts mid rn sid) s.player_weapons
  { s with player_weapons := tbl }

/-- The row built by `_update_player_match_stats_sync`'s upsert. -/
def mkPlayerMatchStatRow (mid : String) (ps : PlayerState) : PlayerMatchStatRow :=
  { steam_account := ps.steam_id, match_id := mid, kills := ps.match_kills,
    deaths := ps.match_deaths, assists := ps.match_assists,
    mvps := ps.match_mvps, score := ps.match_score }

/-- `INSERT ... ON CONFLICT (steam_account_id, match_id) DO UPDATE`: the
conflict target replaces the row's counters, otherwise append. -/
def upsert_player_match_stat (tbl : List PlayerMatchStatRow) (r : PlayerMatchStatRow) :
    List PlayerMatchStatRow :=
  if tbl.any (fun x => x.steam_account = r.steam_account ∧ x.match_id = r.match_id) then
    tbl.map (fun x =>
      if x.steam_account = r.steam_account ∧ x.match_id = r.match_id then r else x)
  else tbl ++ [r]

/-- `update_player_match_stats`: the upsert succeeds when both FKs hold,
else the DB raises and the handler returns falsy. -/
def update_player_match_stats (s : Store) (mid : String) (ps : PlayerState) : Store × Bool :=
  if account_row_exists s.accounts ps.steam_id ∧ match_exists s mid then
    ({ s with player_match_stats :=
        upsert_player_match_stat s.player_match_stats (mkPlayerMatchStatRow mid ps) }, true)
  else (s, false)

/-! ## Replay idempotence of the batch writers (claim C1)

Each batch writer is a left fold of a conditional-insert step.  The
generic lemmas below show that a fold is a no-op on its own result
whenever one can name a per-element "done" predicate that is
established by the element's own step, preserved by every later step,
and forces the step to be the identity. -/

theorem foldl_done_preserved {σ α : Type _} (step : σ → α → σ) (Done : σ → α → Prop)
    (h2 : ∀ s x y, Done s x → Done (step s y) x) :
    ∀ (l : List α) (s : σ) (x : α), Done s x → Done (l.foldl step s) x := by
  intro l
  induction l with
  | nil => intro s x h; exact h
  | cons a l ih => intro s x h; exact ih (step s a) x (h2 s x a h)

theorem foldl_done_accum {σ α : Type _} (step : σ → α → σ) (Done : σ → α → Prop)
    (h1 : ∀ s x, Done (step s x) x)
    (h2 : ∀ s x y, Done s x → Done (step s y) x) :
    ∀ (l : List α) (s : σ) (x : α), x ∈ l → Done (l.foldl step s) x := by
  intro l
  induction l with
  | nil => intro s x hx; cases hx
  | cons a l ih =>
      intro s x hx
      rcases List.mem_cons.mp hx with rfl | hx
      · exact foldl_done_preserved step Done h2 l (step s x) x (h1 s x)
      · exact ih (step s a) x hx

theorem foldl_done_fix {σ α : Type _} (step : σ → α → σ) (Done : σ → α → Prop)
    (h3 : ∀ s x, Done s x → step s x = s) :
    ∀ (l : List α) (s : σ), (∀ x ∈ l, Done s x) → l.foldl step s = s := by
  intro l
  induction l with
  | nil => intro s _; rfl
  | cons a l ih =>
      intro s hall
      have ha := h3 s a (hall a (List.mem_cons_self a l))
      rw [List.foldl_cons, ha]
      exact ih s (fun x hx => hall x (List.mem_cons_of_mem a hx))

theorem foldl_replay {σ α : Type _} (step : σ → α → σ) (Done : σ → α → Prop)
    (h1 : ∀ s x, Done (step s x) x)
    (h2 : ∀ s x y, Done s x → Done (step s y) x)
    (h3 : ∀ s x, Done s x → step s x = s)
    (l : List α) (s : σ) :
    l.foldl step (l.foldl step s) = l.foldl step s :=
  foldl_done_fix step Done h3 l _ (fun x hx => foldl_done_accum step Done h1 h2 l s x hx)

theorem foldl_append_ext {α β : Type _} (step : List α → β → List α)
    (hstep : ∀ t b, ∃ ext, step t b = t ++ ext) :
    ∀ (l : List β) (t : List α), ∃ ext, l.foldl step t = t ++ ext := by
  intro l
  induction l with
  | nil => intro t; exact ⟨[], by simp⟩
  | cons b l ih =>
      intro t
      obtain ⟨e1, he1⟩ := hstep t b
      obtain ⟨e2, he2⟩ := ih (step t b)
      exact ⟨e1 ++ e2, by rw [List.foldl_cons, he2, he1, List.append_assoc]⟩

/-! ### Player round states -/

theorem player_round_state_seen_append (tbl ext : List PlayerRoundStateRow)
    (mid : String) (rn : Int) (sid : String) (ts : Int)
    (h : player_round_state_seen tbl mid rn sid ts = true) :
    player_round_state_seen (tbl ++ ext) mid rn sid ts = true := by
  unfold player_round_state_seen at h ⊢
  rw [List.any_append, h, Bool.true_or]

/-- After one pass, nothing remains to do for a buffered player state:
either its composite key is present, or its account token is falsy, or
an FK precondition fails (both FK tables are read-only here). -/
def prs_done (mrows : List MatchRow) (accounts : List (String × String))
    (mid : String) (rn : Int) (tbl : List PlayerRoundStateRow) (ps : PlayerState) : Prop :=
  player_round_state_seen tbl mid rn ps.steam_id ps.state_timestamp = true ∨
  pyTruthyStr (ensure_steam_account accounts ps.steam_id) = false ∨
  ¬(mrows.any (fun m => m.match_id = mid) = true ∧
    account_row_exists accounts ps.steam_id = true)

theorem batch_player_state_step_shape (mrows : List MatchRow)
    (accounts : List (String × String)) (mid : String) (rn : Int)
    (tbl : List PlayerRoundStateRow) (ps : PlayerState) :
    ∃ ext, batch_player_state_step mrows accounts mid rn tbl ps = tbl ++ ext := by
  unfold batch_player_state_step create_player_round_state insert_player_round_state
  split
  · exact ⟨[], by simp⟩
  · split
    · split
      · exact ⟨[mkPlayerRoundStateRow mid rn ps], rfl⟩
      · exact ⟨[], by simp⟩
    · exact ⟨[], by simp⟩

theorem prs_done_after_step (mrows : List MatchRow) (accounts : List (String × String))
    (mid : String) (rn : Int) (tbl : List PlayerRoundStateRow) (ps : PlayerState) :
    prs_done mrows accounts mid rn (batch_player_state_step mrows accounts mid rn tbl ps) ps := by
  unfold batch_player_state_step
  split
  · rename_i hseen
    exact Or.inl hseen
  · rename_i hnseen
    unfold create_player_round_state
    split
    · rename_i htok
      unfold insert_player_round_state
      split
      · left
        unfold player_round_state_seen
        rw [List.any_append, Bool.or_eq_true]
        right
        simp [mkPlayerRoundStateRow]
      · rename_i hcond
        right; right
        intro ⟨hm, ha⟩
        apply hcond
        refine ⟨by simpa [mkPlayerRoundStateRow] using hm,
                by simpa [mkPlayerRoundStateRow] using ha, ?_⟩
        simpa [mkPlayerRoundStateRow] using hnseen
    · rename_i htok
      right; left
      simpa using htok

theorem prs_done_mono (mrows : List MatchRow) (accounts : List (String × String))
    (mid : String) (rn : Int) (tbl : List PlayerRoundStateRow) (ps ps' : PlayerState)
    (h : prs_done mrows accounts mid rn tbl ps) :
    prs_done mrows accounts mid rn (batch_player_state_step mrows accounts mid rn tbl ps') ps := by
  rcases h with h | h | h
  · left
    obtain ⟨ext, he⟩ := batch_player_state_step_shape mrows accounts mid rn tbl ps'
    rw [he]
    exact player_round_state_seen_append tbl ext mid rn ps.steam_id ps.state_timestamp h
  · exact Or.inr (Or.inl h)
  · exact Or.inr (Or.inr h)

theorem prs_step_of_done (mrows : List MatchRow) (accounts : List (String × String))
    (mid : String) (rn : Int) (tbl : List PlayerRoundStateRow) (ps : PlayerState)
    (h : prs_done mrows accounts mid rn tbl ps) :
    batch_player_state_step mrows accounts mid rn tbl ps = tbl := by
  unfold batch_player_state_step
  split
  · rfl
  · rename_i hnseen
    rcases h with h | h | h
    · exact absurd h hnseen
    · unfold create_player_round_state
      rw [if_neg (by simp [h])]
    · unfold create_player_round_state
      split
      · unfold insert_player_round_state
        rw [if_neg]
        intro ⟨hm, ha, _⟩
        exact h ⟨by simpa [mkPlayerRoundStateRow] using hm,
                 by simpa [mkPlayerRoundStateRow] using ha⟩
      · rfl

/-- Replaying `batch_create_player_states`' fold on its own result adds
nothing. -/
theorem prs_fold_replay (mrows : List MatchRow) (accounts : List (String × String))
    (mid : String) (rn : Int) (psl : List PlayerState) (tbl : List PlayerRoundStateRow) :
    psl.foldl (batch_player_state_step mrows accounts mid rn)
        (psl.foldl (batch_player_state_step mrows accounts mid rn) tbl)
      = psl.foldl (batch_player_state_step mrows accounts mid rn) tbl :=
  foldl_replay _ (prs_done mrows accounts mid rn)
    (fun t x => prs_done_after_step mrows accounts mid rn t x)
    (fun t x y hx => prs_done_mono mrows accounts mid rn t x y hx)
    (fun t x hx => prs_step_of_done mrows accounts mid rn t x hx)
    psl tbl

/-! ### Player weapons -/

theorem player_weapon_seen_append (tbl ext : List PlayerWeaponRow)
    (mid : String) (rn : Int) (sid : String) (wid : Int) (ts : Int)
    (h : player_weapon_seen tbl mid rn sid wid ts = true) :
    player_weapon_seen (tbl ++ ext) mid rn sid wid ts = true := by
  unfold player_weapon_seen at h ⊢
  rw [List.any_append, h, Bool.true_or]

/-- Nothing remains to do for one buffered weapon state: the weapon
name is unknown, or its composite key is present, or an FK
precondition fails. -/
def pw_done (weapons : List (String × Int)) (mrows : List MatchRow)
    (accounts : List (String × String)) (mid : String) (rn : Int) (sid : String)
    (tbl : List PlayerWeaponRow) (w : WeaponState) : Prop :=
  match get_weapon_id_by_name weapons w.name with
  | none => True
  | some wid =>
      player_weapon_seen tbl mid rn sid wid w.state_timestamp = true ∨
      ¬(mrows.any (fun m => m.match_id = mid) = true ∧
        account_row_exists accounts sid = true)

/-- The state-independent blocked case: unknown weapon or failing FK. -/
def pw_blocked (weapons : List (String × Int)) (mrows : List MatchRow)
    (accounts : List (String × String)) (mid : String) (sid : String)
    (w : WeaponState) : Prop :=
  get_weapon_id_by_name weapons w.name = none ∨
  ¬(mrows.any (fun m => m.match_id = mid) = true ∧
    account_row_exists accounts sid = true)

theorem create_player_weapon_step_shape (weapons : List (String × Int))
    (mrows : List MatchRow) (accounts : List (String × String)) (mid : String)
    (rn : Int) (sid : String) (tbl : List PlayerWeaponRow) (w : WeaponState) :
    ∃ ext, create_player_weapon_step weapons mrows accounts mid rn sid tbl w = tbl ++ ext := by
  unfold create_player_weapon_step insert_player_weapon
  split
  · exact ⟨[], by simp⟩
  · split
    · rename_i wid _ _
      exact ⟨[mkPlayerWeaponRow mid rn sid wid w], rfl⟩
    · exact ⟨[], by simp⟩

theorem batch_weapon_snapshot_step_shape (weapons : List (String × Int))
    (mrows : List MatchRow) (accounts : List (String × String)) (mid : String)
    (rn : Int) (sid : String) (tbl : List PlayerWeaponRow)
    (dict : List (String × WeaponState)) :
    ∃ ext, batch_weapon_snapshot_step weapons mrows accounts mid rn sid tbl dict = tbl ++ ext := by
  unfold batch_weapon_snapshot_step
  exact foldl_append_ext
    (fun t (sw : String × WeaponState) =>
      create_player_weapon_step weapons mrows accounts mid rn sid t sw.2)
    (fun t sw => create_player_weapon_step_shape weapons mrows accounts mid rn sid t sw.2)
    _ tbl

theorem pw_done_append (weapons : List (String × Int)) (mrows : List MatchRow)
    (accounts : List (String × String)) (mid : String) (rn : Int) (sid : String)
    (tbl ext : List PlayerWeaponRow) (w : WeaponState)
    (h : pw_done weapons mrows accounts mid rn sid tbl w) :
    pw_done weapons mrows accounts mid rn sid (tbl ++ ext) w := by
  unfold pw_done at h ⊢
  cases hl : get_weapon_id_by_name weapons w.name with
  | none => simp only [hl]
  | some wid =>
      simp only [hl] at h ⊢
      rcases h with h | h
      · exact Or.inl (player_weapon_seen_append tbl ext mid rn sid wid w.state_timestamp h)
      · exact Or.inr h

theorem pw_done_after_create (weapons : List (String × Int)) (mrows : List MatchRow)
    (accounts : List (String × String)) (mid : String) (rn : Int) (sid : String)
    (tbl : List PlayerWeaponRow) (w : WeaponState) :
    pw_done weapons mrows accounts mid rn sid
      (create_player_weapon_step weapons mrows accounts mid rn sid tbl w) w := by
  unfold create_player_weapon_step
  cases hl : get_weapon_id_by_name weapons w.name with
  | none => unfold pw_done; simp only [hl]
  | some wid =>
      simp only [hl]
      unfold pw_done insert_player_weapon
      simp only [hl]
      split
      · left
        unfold player_weapon_seen
        rw [List.any_append, Bool.or_eq_true]
        right
        simp [mkPlayerWeaponRow]
      · rename_i hcond
        by_cases hseen : player_weapon_seen tbl mid rn sid wid w.state_timestamp = true
        · exact Or.inl hseen
        · right
          intro ⟨hm, ha⟩
          exact hcond ⟨by simpa [mkPlayerWeaponRow] using hm,
                       by simpa [mkPlayerWeaponRow] using ha,
                       by simpa [mkPlayerWeaponRow] using hseen⟩

theorem pw_done_mono_create (weapons : List (String × Int)) (mrows : List MatchRow)
    (accounts : List (String × String)) (mid : String) (rn : Int) (sid : String)
    (tbl : List PlayerWeaponRow) (w w' : WeaponState)
    (h : pw_done weapons mrows accounts mid rn sid tbl w) :
    pw_done weapons mrows accounts mid rn sid
      (create_player_weapon_step weapons mrows accounts mid rn sid tbl w') w := by
  obtain ⟨ext, he⟩ := create_player_weapon_step_shape weapons mrows accounts mid rn sid tbl w'
  rw [he]
  exact pw_done_append weapons mrows accounts mid rn sid tbl ext w h

theorem pw_step_of_blocked (weapons : List (String × Int)) (mrows : List MatchRow)
    (accounts : List (String × String)) (mid : String) (rn : Int) (sid : String)
    (tbl : List PlayerWeaponRow) (w : WeaponState)
    (h : pw_blocked weapons mrows accounts mid sid w) :
    create_player_weapon_step weapons mrows accounts mid rn sid tbl w = tbl := by
  unfold create_player_weapon_step
  rcases h with h | h
  · simp only [h]
  · cases hl : get_weapon_id_by_name weapons w.name with
    | none => simp only [hl]
    | some wid =>
        simp only [hl]
        unfold insert_player_weapon
        rw [if_neg]
        intro ⟨hm, ha, _⟩
        exact h ⟨by simpa [mkPlayerWeaponRow] using hm,
                 by simpa [mkPlayerWeaponRow] using ha⟩

/-- The outer per-snapshot-dictionary "done" predicate: every weapon in
the dictionary is done. -/
def pw_dict_done (weapons : List (String × Int)) (mrows : List MatchRow)
    (accounts : List (String × String)) (mid : String) (rn : Int) (sid : String)
    (tbl : List PlayerWeaponRow) (dict : List (String × WeaponState)) : Prop :=
  ∀ sw ∈ dict, pw_done weapons mrows accounts mid rn sid tbl sw.2

theorem pw_dict_done_after_step (weapons : List (String × Int)) (mrows : List MatchRow)
    (accounts : List (String × String)) (mid : String) (rn : Int) (sid : String)
    (tbl : List PlayerWeaponRow) (dict : List (String × WeaponState)) :
    pw_dict_done weapons mrows accounts mid rn sid
      (batch_weapon_snapshot_step weapons mrows accounts mid rn sid tbl dict) dict := by
  intro sw hsw
  by_cases hw : player_weapon_wanted weapons mid rn sid tbl sw.2 = true
  · have hmem : sw ∈ dict.filter (fun sw => player_weapon_wanted weapons mid rn sid tbl sw.2) :=
      List.mem_filter.mpr ⟨hsw, hw⟩
    have hrw : batch_weapon_snapshot_step weapons mrows accounts mid rn sid tbl dict
        = (dict.filter (fun sw => player_weapon_wanted weapons mid rn sid tbl sw.2)).foldl
            (fun t sw => create_player_weapon_step weapons mrows accounts mid rn sid t sw.2)
            tbl := rfl
    rw [hrw]
    exact foldl_done_accum
      (fun t sw => create_player_weapon_step weapons mrows accounts mid rn sid t sw.2)
      (fun t sw => pw_done weapons mrows accounts mid rn sid t sw.2)
      (fun t sw => pw_done_after_create weapons mrows accounts mid rn sid t sw.2)
      (fun t sw sw' hx => pw_done_mono_create weapons mrows accounts mid rn sid t sw.2 sw'.2 hx)
      _ tbl sw hmem
  · obtain ⟨ext, he⟩ :=
      batch_weapon_snapshot_step_shape weapons mrows accounts mid rn sid tbl dict
    rw [he]
    unfold player_weapon_wanted at hw
    unfold pw_done
    cases hl : get_weapon_id_by_name weapons sw.2.name with
    | none => simp only [hl]
    | some wid =>
        simp only [hl] at hw ⊢
        have hseen : player_weapon_seen tbl mid rn sid wid sw.2.state_timestamp = true := by
          by_cases hs : player_weapon_seen tbl mid rn sid wid sw.2.state_timestamp = true
          · exact hs
          · exact absurd (by simp [Bool.not_eq_true'] at hs ⊢; exact hs) hw
        exact Or.inl (player_weapon_seen_append tbl ext mid rn sid wid sw.2.state_timestamp hseen)

theorem pw_dict_done_mono (weapons : List (String × Int)) (mrows : List MatchRow)
    (accounts : List (String × String)) (mid : String) (rn : Int) (sid : String)
    (tbl : List PlayerWeaponRow) (dict dict' : List (String × WeaponState))
    (h : pw_dict_done weapons mrows accounts mid rn sid tbl dict) :
    pw_dict_done weapons mrows accounts mid rn sid
      (batch_weapon_snapshot_step weapons mrows accounts mid rn sid tbl dict') dict := by
  intro sw hsw
  obtain ⟨ext, he⟩ :=
    batch_weapon_snapshot_step_shape weapons mrows accounts mid rn sid tbl dict'
  rw [he]
  exact pw_done_append weapons mrows accounts mid rn sid tbl ext sw.2 (h sw hsw)

theorem pw_snapshot_step_of_done (weapons : List (String × Int)) (mrows : List MatchRow)
    (accounts : List (String × String)) (mid : String) (rn : Int) (sid : String)
    (tbl : List PlayerWeaponRow) (dict : List (String × WeaponState))
    (h : pw_dict_done weapons mrows accounts mid rn sid tbl dict) :
    batch_weapon_snapshot_step weapons mrows accounts mid rn sid tbl dict = tbl := by
  have hrw : batch_weapon_snapshot_step weapons mrows accounts mid rn sid tbl dict
      = (dict.filter (fun sw => player_weapon_wanted weapons mid rn sid tbl sw.2)).foldl
          (fun t sw => create_player_weapon_step weapons mrows accounts mid rn sid t sw.2)
          tbl := rfl
  rw [hrw]
  refine foldl_done_fix
    (fun t (sw : String × WeaponState) =>
      create_player_weapon_step weapons mrows accounts mid rn sid t sw.2)
    (fun _ sw => pw_blocked weapons mrows accounts mid sid sw.2)
    (fun t sw hx => pw_step_of_blocked weapons mrows accounts mid rn sid t sw.2 hx)
    _ tbl ?_
  intro sw hsw
  obtain ⟨hmem, hw⟩ := List.mem_filter.mp hsw
  unfold player_weapon_wanted at hw
  have hd := h sw hmem
  unfold pw_done at hd
  cases hl : get_weapon_id_by_name weapons sw.2.name with
  | none => exact Or.inl hl
  | some wid =>
      simp only [hl] at hw hd
      rcases hd with hd | hd
      · rw [hd] at hw
        simp at hw
      · exact Or.inr hd

/-- Replaying `batch_create_player_weapons`' fold on its own result adds
nothing. -/
theorem pw_fold_replay (weapons : List (String × Int)) (mrows : List MatchRow)
    (accounts : List (String × String)) (mid : String) (rn : Int) (sid : String)
    (hist : List (List (String × WeaponState))) (tbl : List PlayerWeaponRow) :
    hist.foldl (batch_weapon_snapshot_step weapons mrows accounts mid rn sid)
        (hist.foldl (batch_weapon_snapshot_step weapons mrows accounts mid rn sid) tbl)
      = hist.foldl (batch_weapon_snapshot_step weapons mrows accounts mid rn sid) tbl :=
  foldl_replay _ (pw_dict_done weapons mrows accounts mid rn sid)
    (fun t d => pw_dict_done_after_step weapons mrows accounts mid rn sid t d)
    (fun t d d' hx => pw_dict_done_mono weapons mrows accounts mid rn sid t d d' hx)
    (fun t d hx => pw_snapshot_step_of_done weapons mrows accounts mid rn sid t d hx)
    hist tbl

/-! ### Player match stats -/

theorem upsert_player_match_stat_replay (tbl : List PlayerMatchStatRow) (r : PlayerMatchStatRow) :
    upsert_player_match_stat (upsert_player_match_stat tbl r) r
      = upsert_player_match_stat tbl r := by
  unfold upsert_player_match_stat
  by_cases hk : tbl.any (fun x => x.steam_account = r.steam_account ∧ x.match_id = r.match_id) = true
  · rw [if_pos hk]
    have hk' : (tbl.map (fun x =>
        if x.steam_account = r.steam_account ∧ x.match_id = r.match_id then r else x)).any
          (fun x => x.steam_account = r.steam_account ∧ x.match_id = r.match_id) = true := by
      rw [List.any_map]
      rw [List.any_eq_true] at hk ⊢
      obtain ⟨x, hx, hkey⟩ := hk
      refine ⟨x, hx, ?_⟩
      simp only [Function.comp_apply]
      simp only [decide_eq_true_eq] at hkey
      rw [if_pos hkey]
      simp
    rw [if_pos hk', List.map_map]
    have hff : ((fun x : PlayerMatchStatRow =>
          if x.steam_account = r.steam_account ∧ x.match_id = r.match_id then r else x) ∘
        (fun x => if x.steam_account = r.steam_account ∧ x.match_id = r.match_id then r else x))
        = (fun x => if x.steam_account = r.steam_account ∧ x.match_id = r.match_id then r else x) := by
      funext x
      simp only [Function.comp_apply]
      by_cases hx : x.steam_account = r.steam_account ∧ x.match_id = r.match_id
      · rw [if_pos hx, if_pos ⟨rfl, rfl⟩]
      · rw [if_neg hx, if_neg hx]
    rw [hff]
  · rw [if_neg hk]
    have hk' : ((tbl ++ [r]).any
        (fun x => x.steam_account = r.steam_account ∧ x.match_id = r.match_id)) = true := by
      rw [List.any_append]
      simp
    rw [if_pos hk', List.map_append]
    have hnone : ∀ x ∈ tbl, ¬(x.steam_account = r.steam_account ∧ x.match_id = r.match_id) := by
      intro x hx hkey
      apply hk
      rw [List.any_eq_true]
      exact ⟨x, hx, by simpa using hkey⟩
    have h1 : tbl.map (fun x =>
        if x.steam_account = r.steam_account ∧ x.match_id = r.match_id then r else x) = tbl := by
      conv_rhs => rw [← List.map_id tbl]
      apply List.map_congr_left
      intro x hx
      rw [if_neg (hnone x hx)]
      rfl
    have h2 : [r].map (fun x =>
        if x.steam_account = r.steam_account ∧ x.match_id = r.match_id then r else x) = [r] := by
      simp
    rw [h1, h2]

theorem upms_fst_match_rows (s : Store) (mid : String) (ps : PlayerState) :
    (update_player_match_stats s mid ps).1.match_rows = s.match_rows := by
  unfold update_player_match_stats; split <;> rfl

theorem upms_fst_accounts (s : Store) (mid : String) (ps : PlayerState) :
    (update_player_match_stats s mid ps).1.accounts = s.accounts := by
  unfold update_player_match_stats; split <;> rfl

theorem upms_fst_weapons (s : Store) (mid : String) (ps : PlayerState) :
    (update_player_match_stats s mid ps).1.weapons = s.weapons := by
  unfold update_player_match_stats; split <;> rfl

theorem upms_fst_player_round_states (s : Store) (mid : String) (ps : PlayerState) :
    (update_player_match_stats s mid ps).1.player_round_states = s.player_round_states := by
  unfold update_player_match_stats; split <;> rfl

theorem upms_fst_player_weapons (s : Store) (mid : String) (ps : PlayerState) :
    (update_player_match_stats s mid ps).1.player_weapons = s.player_weapons := by
  unfold update_player_match_stats; split <;> rfl

theorem update_player_match_stats_replay (s : Store) (mid : String) (ps : PlayerState) :
    (update_player_match_stats (update_player_match_stats s mid ps).1 mid ps).1
      = (update_player_match_stats s mid ps).1 := by
  by_cases hc : account_row_exists s.accounts ps.steam_id = true ∧ match_exists s mid = true
  · have h1 : update_player_match_stats s mid ps
        = ({ s with player_match_stats :=
            upsert_player_match_stat s.player_match_stats (mkPlayerMatchStatRow mid ps) }, true) := by
      unfold update_player_match_stats
      rw [if_pos (by exact ⟨hc.1, hc.2⟩)]
    rw [h1]
    unfold update_player_match_stats
    rw [if_pos (by exact ⟨hc.1, by simpa [match_exists] using hc.2⟩)]
    simp only [Prod.fst]
    rw [upsert_player_match_stat_replay]
  · have h1 : update_player_match_stats s mid ps = (s, false) := by
      unfold update_player_match_stats
      rw [if_neg (by intro ⟨h1, h2⟩; exact hc ⟨h1, h2⟩)]
    rw [h1, show ((s, false) : Store × Bool).1 = s from rfl, h1]

/-! ### The C1 composite -/

/-- The store mutations the sources of claim C1 perform for one
snapshot's buffered data: persist the buffered player states, persist
the buffered weapon states (keyed to the owner), then upsert the
player's match stats — the body of `_persist_round_data`'s write
sequence. -/
def persist_snapshot_data (s : Store) (mid : String) (rn : Int) (sid : String)
    (psl : List PlayerState) (hist : List (List (String × WeaponState)))
    (ps : PlayerState) : Store :=
  let s1 := batch_create_player_states s mid rn psl
  let s2 := batch_create_player_weapons s1 mid rn sid hist
  (update_player_match_stats s2 mid ps).1

/-- C1: processing the identical snapshot data a second time
immediately after the first produces no store mutation beyond those of
the first processing — the persisted PlayerRoundState rows,
PlayerWeapon rows and the PlayerMatchStat row (indeed the whole store)
are identical: the append-only inserts are skipped because a row with
the same composite key already exists, and the PlayerMatchStat upsert
overwrites with the same values. -/
theorem c1_snapshot_replay_idempotent (s : Store) (mid : String) (rn : Int) (sid : String)
    (psl : List PlayerState) (hist : List (List (String × WeaponState))) (ps : PlayerState) :
    persist_snapshot_data (persist_snapshot_data s mid rn sid psl hist ps) mid rn sid psl hist ps
      = persist_snapshot_data s mid rn sid psl hist ps := by
  set P := persist_snapshot_data s mid rn sid psl hist ps with hP
  have hPmr : P.match_rows = s.match_rows := by
    rw [hP]
    show (update_player_match_stats (batch_create_player_weapons
        (batch_create_player_states s mid rn psl) mid rn sid hist) mid ps).1.match_rows
      = s.match_rows
    rw [upms_fst_match_rows]
    rfl
  have hPacc : P.accounts = s.accounts := by
    rw [hP]
    show (update_player_match_stats (batch_create_player_weapons
        (batch_create_player_states s mid rn psl) mid rn sid hist) mid ps).1.accounts
      = s.accounts
    rw [upms_fst_accounts]
    rfl
  have hPwt : P.weapons = s.weapons := by
    rw [hP]
    show (update_player_match_stats (batch_create_player_weapons
        (batch_create_player_states s mid rn psl) mid rn sid hist) mid ps).1.weapons
      = s.weapons
    rw [upms_fst_weapons]
    rfl
  have hPprs : P.player_round_states
      = psl.foldl (batch_player_state_step s.match_rows s.accounts mid rn)
          s.player_round_states := by
    rw [hP]
    show (update_player_match_stats (batch_create_player_weapons
        (batch_create_player_states s mid rn psl) mid rn sid hist) mid ps).1.player_round_states
      = _
    rw [upms_fst_player_round_states]
    rfl
  have hPpw : P.player_weapons
      = hist.foldl (batch_weapon_snapshot_step s.weapons s.match_rows s.accounts mid rn sid)
          s.player_weapons := by
    rw [hP]
    show (update_player_match_stats (batch_create_player_weapons
        (batch_create_player_states s mid rn psl) mid rn sid hist) mid ps).1.player_weapons
      = _
    rw [upms_fst_player_weapons]
    rfl
  have e1 : batch_create_player_states P mid rn psl = P := by
    have hfold : psl.foldl (batch_player_state_step P.match_rows P.accounts mid rn)
        P.player_round_states = P.player_round_states := by
      rw [hPmr, hPacc, hPprs]
      exact prs_fold_replay s.match_rows s.accounts mid rn psl s.player_round_states
    show ({ P with player_round_states := psl.foldl (batch_player_state_step P.match_rows P.accounts mid rn) P.player_round_states } : Store) = P
    rw [hfold]
  have e2 : batch_create_player_weapons P mid rn sid hist = P := by
    have hfold : hist.foldl (batch_weapon_snapshot_step P.weapons P.match_rows P.accounts mid rn sid)
        P.player_weapons = P.player_weapons := by
      rw [hPmr, hPacc, hPwt, hPpw]
      exact pw_fold_replay s.weapons s.match_rows s.accounts mid rn sid hist s.player_weapons
    show ({ P with player_weapons := hist.foldl (batch_weapon_snapshot_step P.weapons P.match_rows P.accounts mid rn sid) P.player_weapons } : Store) = P
    rw [hfold]
  show (update_player_match_stats (batch_create_player_weapons
      (batch_create_player_states P mid rn psl) mid rn sid hist) mid ps).1 = P
  rw [e1, e2, hP]
  show (update_player_match_stats (update_player_match_stats (batch_create_player_weapons
      (batch_create_player_states s mid rn psl) mid rn sid hist) mid ps).1 mid ps).1 = _
  exact update_player_match_stats_replay _ mid ps

/-! ## Remaining single-row persistence operations (`django_integration.py`) -/

/-- `create_match`: raw INSERT into `matches_match`; a duplicate primary
key raises and the handler returns `None`. -/
def create_match (s : Store) (ms : MatchState) (full_match_id : String) :
    Store × Option String :=
  if match_exists s full_match_id then (s, none)
  else
    ({ s with match_rows := s.match_rows ++
        [{ match_id := full_match_id, game_mode := ms.mode, map_name := ms.map_name,
           start_timestamp := ms.timestamp, end_timestamp := none,
           rounds_played := ms.round, team_ct_score := ms.team_ct_score,
           team_t_score := ms.team_t_score }] }, some full_match_id)

/-- `update_match`: UPDATE of mode, map, scores and rounds_played;
returns whether a row was affected. -/
def update_match (s : Store) (mid : String) (ms : MatchState) : Store × Bool :=
  ({ s with match_rows := s.match_rows.map (fun r =>
      if r.match_id = mid then
        { r with game_mode := ms.mode, map_name := ms.map_name,
                 team_ct_score := ms.team_ct_score, team_t_score := ms.team_t_score,
                 rounds_played := ms.round }
      else r) }, match_exists s mid)

/-- `complete_match`: sets `end_timestamp`, final scores and rounds. -/
def complete_match (s : Store) (mid : String) (ct t total ts : Int) : Store × Bool :=
  ({ s with match_rows := s.match_rows.map (fun r =>
      if r.match_id = mid then
        { r with end_timestamp := some ts, rounds_played := total,
                 team_ct_score := ct, team_t_score := t }
      else r) }, match_exists s mid)

/-- `create_round`: a missing timestamp raises inside
`convert_unix_timestamp_to_datetime` (caught, returns `None`); otherwise
a raw INSERT guarded by the match FK and the `(match_id, round_number)`
unique constraint. -/
def create_round (s : Store) (mid : String) (rn : Int) (phase : String)
    (winning_team win_condition : Option String) (ts : Option Int) : Store × Bool :=
  match ts with
  | none => (s, false)
  | some t =>
      if match_exists s mid ∧ ¬ round_exists s mid rn then
        ({ s with rounds := s.rounds ++
            [{ match_id := mid, round_number := rn, phase := phase, timestamp := t,
               winning_team := winning_team, win_condition := win_condition }] }, true)
      else (s, false)

/-- `update_round_winner`: sets winner, condition and `phase = 'over'`
on the `(match_id, round_number)` row. -/
def update_round_winner (s : Store) (mid : String) (rn : Int)
    (winning_team : String) (win_condition : Option String) : Store × Bool :=
  ({ s with rounds := s.rounds.map (fun r =>
      if r.match_id = mid ∧ r.round_number = rn then
        { r with winning_team := some winning_team, win_condition := win_condition,
                 phase := "over" }
      else r) }, round_exists s mid rn)

/-! ## The payload extractor's mutable state (`PayloadExtractor`) -/

/-- Insert-or-replace for a Python dict modelled as an association list. -/
def alistInsert {α β : Type _} [DecidableEq α] (l : List (α × β)) (k : α) (v : β) :
    List (α × β) :=
  if l.any (fun kv => kv.1 = k) then
    l.map (fun kv => if kv.1 = k then (k, v) else kv)
  else l ++ [(k, v)]

/-- Dict lookup for an association list. -/
def alistLookup {α β : Type _} [DecidableEq α] (l : List (α × β)) (k : α) : Option β :=
  (l.find? (fun kv => kv.1 = k)).map (fun kv => kv.2)

/-- `PayloadExtractor.__init__` sets `previous_round_state` to the
`RoundState` *class* object (not an instance).  Reading `win_team` /
`win_condition` off the class yields the dataclass defaults (`None`),
which are the only fields ever read from a history entry, so the
placeholder carries `none` for both. -/
def placeholderRoundState : RoundState :=
  { round_number := 0, phase := "", win_team := none, bomb_state := none,
    win_condition := none, timestamp := 0 }

/-- The mutable state of a `PayloadExtractor` instance.
`previous_round_state = none` models the initial class placeholder. -/
structure ExtractorState where
  current_match : Option MatchState
  player_states : List (String × PlayerState)
  current_round : Option RoundState
  weapon_states : List (String × WeaponState)
  previous_round_state : Option RoundState
  round_history : List (Int × RoundState)
  processed_rounds : List Int
deriving DecidableEq, Repr

/-- A fresh extractor. -/
def initExtractor : ExtractorState :=
  { current_match := none, player_states := [], current_round := none,
    weapon_states := [], previous_round_state := none, round_history := [],
    processed_rounds := [] }

/-- Add to a Python `set` modelled as a duplicate-free list. -/
def setInsert (l : List Int) (x : Int) : List Int :=
  if x ∈ l then l else l ++ [x]

/-- `PayloadExtractor._update_internal_state`.  Note two quirks kept
from the source: the processed-rounds guard tests the *new* round
number but records the *old* one, and the previous-round bookkeeping
subtracts one from the incoming round number. -/
def updateInternalState (es : ExtractorState) (ms : Option MatchState)
    (ps : Option PlayerState) (rs : Option RoundState)
    (ws : List (String × WeaponState)) : ExtractorState :=
  let es := match ms with
    | none => es
    | some m => { es with current_match := some m }
  let es := match ps with
    | none => es
    | some p => { es with player_states := alistInsert es.player_states p.steam_id p }
  let es := if ws.isEmpty then es else { es with weapon_states := ws }
  match rs with
  | none => es
  | some r =>
      let old_phase_not_over : Bool :=
        match es.current_round with
        | none => true
        | some cr => cr.phase ≠ "over"
      let old_rn := r.round_number - 1
      let processed :=
        if old_phase_not_over = true ∧ r.phase = "over" ∧ pyTruthyStr r.win_team = true ∧
            r.round_number ∉ es.processed_rounds
        then setInsert es.processed_rounds old_rn
        else es.processed_rounds
      let prev : Option RoundState :=
        match es.current_round with
        | none => es.previous_round_state
        | some cr =>
            let overwrite : Bool := pyTruthyStr r.win_team = true ∧ pyTruthyStr r.win_condition = true
            let wt := if overwrite = true then r.win_team else cr.win_team
            let wc := if overwrite = true then r.win_condition else cr.win_condition
            some { cr with round_number := old_rn, win_team := wt, win_condition := wc }
      let hist :=
        if r.phase = "over" ∧ pyTruthyStr r.win_team = true then
          alistInsert es.round_history old_rn (prev.getD placeholderRoundState)
        else es.round_history
      { es with current_round := some r, previous_round_state := prev,
                processed_rounds := processed, round_history := hist }

/-- `PayloadExtractor.get_round_winner`. -/
def get_round_winner (es : ExtractorState) (rn : Int) : Option String :=
  (alistLookup es.round_history rn).bind (fun r => r.win_team)

/-- `PayloadExtractor.get_round_win_condition`. -/
def get_round_win_condition (es : ExtractorState) (rn : Int) : Option String :=
  (alistLookup es.round_history rn).bind (fun r => r.win_condition)

/-- The record returned by `PayloadExtractor.process_payload`.  The
`changes` entry is omitted: its computation is pure and the processor
only logs it. -/
structure ExtractResult where
  match_state : Option MatchState
  player_state : Option PlayerState
  round_state : Option RoundState
  weapon_states : List (String × WeaponState)
deriving DecidableEq, Repr

/-- `PayloadExtractor.process_payload`: extract all components with one
server-side timestamp, then update the internal state. -/
def extractor_process_payload (es : ExtractorState) (p : Payload) (ts : Int) :
    ExtractorState × ExtractResult :=
  let ms := extract_match_state p ts
  let ps := extract_player_state p ts
  let rs := extract_round_state p ts
  let ws := extract_all_weapons p ts
  (updateInternalState es ms ps rs ws, { match_state := ms, player_state := ps,
                                         round_state := rs, weapon_states := ws })

/-! ## The match processor (`match_processor.py`)

`asyncio.create_task` calls are run synchronously at their creation
point (a deterministic event-loop schedule); DB calls are recorded in a
`PersistCall` log alongside their store effect. -/

/-- One write call into the persistence layer. -/
inductive PersistCall where
  | createMatchCall (mid : String)
  | updateMatchCall (mid : String)
  | completeMatchCall (mid : String)
  | createRoundCall (mid : String) (rn : Int)
  | updateRoundWinnerCall (mid : String) (rn : Int)
  | batchPlayerStatesCall (mid : String) (rn : Int)
  | batchPlayerWeaponsCall (mid : String) (rn : Int)
  | updateMatchStatsCall (mid : String)
deriving DecidableEq, Repr

/-- The mutable fields of a `MatchProcessor`. -/
structure ProcState where
  base_match_id : String
  match_id : String
  owner_steam_id : String
  extractor : ExtractorState
  match_state : Option MatchState
  round_state : Option RoundState
  player_states_history : List PlayerState
  player_states : List (String × PlayerState)
  weapon_states_history : List (List (String × WeaponState))
  weapon_states : List (String × WeaponState)
  match_persisted : Bool
  rounds_persisted : List Int
  current_round : Int
  previous_round_phase : Option String
  round_start_time : Option Int
  last_update_time : Int
  is_completed : Bool
deriving DecidableEq, Repr

/-- `MatchProcessor.__init__`. -/
def initProcessor (base full owner : String) (now : Int) : ProcState :=
  { base_match_id := base, match_id := full, owner_steam_id := owner,
    extractor := initExtractor, match_state := none, round_state := none,
    player_states_history := [], player_states := [], weapon_states_history := [],
    weapon_states := [], match_persisted := false, rounds_persisted := [],
    current_round := 0, previous_round_phase := none, round_start_time := none,
    last_update_time := now, is_completed := false }

/-- Result of one processor step: the new processor state, the new
store, and the write calls issued. -/
structure ProcStep where
  proc : ProcState
  store : Store
  calls : List PersistCall
deriving DecidableEq, Repr

/-- `MatchProcessor.match_phase_nominal`. -/
def match_phase_nominal (ms : MatchState) : Bool :=
  ms.phase ≠ "unknown" ∧ ms.phase ≠ "warmup"

/-- `MatchProcessor._persist_round_data`.  The `create_round` call in
its round-missing branch passes no timestamp, so the timestamp
conversion raises inside `_create_round_sync` and no row is written. -/
def persist_round_data (p : ProcState) (s : Store) (rn : Int) : ProcStep :=
  match p.match_state with
  | none => ⟨p, s, []⟩
  | some _ =>
      if ¬ p.match_persisted then ⟨p, s, []⟩
      else if rn ∉ p.rounds_persisted then ⟨p, s, []⟩
      else
        let createPart : Store × List PersistCall :=
          if ¬ round_exists s p.match_id rn then
            ((create_round s p.match_id rn
                (match p.round_state with | some r => r.phase | none => "over")
                (get_round_winner p.extractor rn) (get_round_win_condition p.extractor rn)
                none).1,
             [PersistCall.createRoundCall p.match_id rn])
          else (s, [])
        let s2 := batch_create_player_states createPart.1 p.match_id rn p.player_states_history
        let s3 := batch_create_player_weapons s2 p.match_id rn p.owner_steam_id
          p.weapon_states_history
        let statsPart : Store × List PersistCall :=
          match p.player_states_history.getLast? with
          | some lastPs => ((update_player_match_stats s3 p.match_id lastPs).1,
              [PersistCall.updateMatchStatsCall p.match_id])
          | none => (s3, [])
        ⟨{ p with player_states_history := [], weapon_states_history := [] },
         statsPart.1,
         createPart.2 ++ [PersistCall.batchPlayerStatesCall p.match_id rn,
                          PersistCall.batchPlayerWeaponsCall p.match_id rn] ++ statsPart.2⟩

/-- `MatchProcessor._complete_round`. -/
def complete_round (p : ProcState) (s : Store) (rn : Int) (now : Int) : ProcStep :=
  let winning := get_round_winner p.extractor rn
  let cond := get_round_win_condition p.extractor rn
  let winPart : Store × List PersistCall :=
    if pyTruthyStr winning = true then
      if round_exists s p.match_id rn then
        ((update_round_winner s p.match_id rn (winning.getD "") cond).1,
         [PersistCall.updateRoundWinnerCall p.match_id rn])
      else
        ((create_round s p.match_id rn "over" winning cond
            (some (match p.match_state with | some m => m.timestamp | none => now))).1,
         [PersistCall.createRoundCall p.match_id rn])
    else (s, [])
  let st := persist_round_data p winPart.1 rn
  ⟨st.proc, st.store, winPart.2 ++ st.calls⟩

/-- `MatchProcessor.ensure_round`.  Quirk kept from the source: the
`else` arm of the timestamp-defaulting chain fires whenever a timestamp
*was* supplied, replacing it with the current wall-clock time. -/
def ensure_round (p : ProcState) (s : Store) (rn : Int) (phase : String)
    (winning cond : Option String) (ts : Option Int) (now : Int) : Store × List PersistCall :=
  if round_exists s p.match_id rn then (s, [])
  else
    let t : Int :=
      if ts = none ∧ p.round_state.isSome then
        match p.round_state with | some r => r.timestamp | none => now
      else if ts = none ∧ p.match_state.isSome then
        match p.match_state with | some m => m.timestamp | none => now
      else now
    ((create_round s p.match_id rn phase winning cond (some t)).1,
     [PersistCall.createRoundCall p.match_id rn])

/-- Steps 2–3 of `MatchProcessor._handle_round_transition`: skip the
new round when the match already completed, else initialize an active
new round. -/
def round_transition_tail (st1 : ProcStep) (new_round : Int) (nrs : RoundState)
    (now : Int) : ProcStep :=
  if st1.proc.is_completed then st1
  else if (nrs.phase = "freezetime" ∨ nrs.phase = "live") ∧ new_round > 0 then
    if ¬ round_exists st1.store st1.proc.match_id new_round then
      let ens := ensure_round st1.proc st1.store new_round nrs.phase none none
        (some nrs.timestamp) now
      ⟨{ st1.proc with round_start_time := some now }, ens.1, st1.calls ++ ens.2⟩
    else ⟨{ st1.proc with round_start_time := some now }, st1.store, st1.calls⟩
  else st1

/-- `MatchProcessor._handle_round_transition`: complete the old round
if unclaimed (step 1), then run the tail. -/
def handle_round_transition (p : ProcState) (s : Store) (old_round new_round : Int)
    (nrs : RoundState) (now : Int) : ProcStep :=
  round_transition_tail
    (if old_round > 0 then
      if old_round ∉ p.rounds_persisted then
        complete_round { p with rounds_persisted := p.rounds_persisted ++ [old_round] }
          s old_round now
      else ⟨p, s, []⟩
    else ⟨p, s, []⟩)
    new_round nrs now

/-- One iteration of `_handle_match_completion`'s missed-round loop:
claim the round if unclaimed, then persist it. -/
def completion_round_step (acc : ProcStep) (rn : Int) : ProcStep :=
  if rn ∉ acc.proc.rounds_persisted then
    let st := persist_round_data
      { acc.proc with rounds_persisted := acc.proc.rounds_persisted ++ [rn] }
      acc.store rn
    ⟨st.proc, st.store, acc.calls ++ st.calls⟩
  else acc

/-- `MatchProcessor._handle_match_completion` (run synchronously at its
`create_task` site). -/
def handle_match_completion (p : ProcState) (s : Store) (now : Int) : ProcStep :=
  if p.is_completed then ⟨p, s, []⟩
  else
    let p1 := { p with is_completed := true }
    match p1.match_state with
    | none => ⟨p1, s, []⟩
    | some mst =>
        let ct := mst.team_ct_score
        let t := mst.team_t_score
        let roundsList : List Int := (List.range p1.current_round.toNat).map (fun i => (i : Int) + 1)
        let step := roundsList.foldl completion_round_step ⟨p1, s, []⟩
        ⟨step.proc,
         (complete_match step.store p1.match_id ct t (ct + t) mst.timestamp).1,
         step.calls ++ [PersistCall.completeMatchCall p1.match_id]⟩

/-- `MatchProcessor._update_round_winner` (run synchronously at its
`create_task` site). -/
def update_round_winner_task (p : ProcState) (s : Store) (rn : Int) (win : String)
    (cond : Option String) (now : Int) : Store × List PersistCall :=
  if round_exists s p.match_id rn then
    ((update_round_winner s p.match_id rn win cond).1,
     [PersistCall.updateRoundWinnerCall p.match_id rn])
  else
    ((create_round s p.match_id rn "over" (some win) cond
        (some (match p.match_state with | some m => m.timestamp | none => now))).1,
     [PersistCall.createRoundCall p.match_id rn])

/-- `MatchProcessor.set_match_state`. -/
def set_match_state (p : ProcState) (s : Store) (ms : MatchState) (now : Int) : ProcStep :=
  let old := p.match_state
  let p1 := { p with match_state := some ms }
  match old with
  | some o =>
      if o.phase ≠ ms.phase ∧ ms.phase = "gameover" then handle_match_completion p1 s now
      else ⟨p1, s, []⟩
  | none => ⟨p1, s, []⟩

/-- `MatchProcessor.set_round_state`. -/
def set_round_state (p : ProcState) (s : Store) (rs : RoundState) (now : Int) : ProcStep :=
  let old := p.round_state
  let p1 := { p with round_state := some rs, current_round := rs.round_number }
  match old with
  | some o =>
      if o.phase ≠ rs.phase ∧ rs.phase = "over" then
        let p2 := { p1 with extractor := { p1.extractor with
          round_history := alistInsert p1.extractor.round_history rs.round_number rs } }
        match rs.win_team with
        | some w =>
            if w ≠ "" then
              let upd := update_round_winner_task p2 s rs.round_number w rs.win_condition now
              ⟨p2, upd.1, upd.2⟩
            else ⟨p2, s, []⟩
        | none => ⟨p2, s, []⟩
      else ⟨p1, s, []⟩
  | none => ⟨p1, s, []⟩

/-- `MatchProcessor._has_match_changes`. -/
def has_match_changes (p : ProcState) (ms : MatchState) : Bool :=
  match p.match_state with
  | none => true
  | some old =>
      old.phase ≠ ms.phase ∨ old.round ≠ ms.round ∨
      old.team_ct_score ≠ ms.team_ct_score ∨ old.team_t_score ≠ ms.team_t_score

/-- `MatchProcessor._handle_match_data` (including `ensure_match`). -/
def handle_match_data (p : ProcState) (s : Store) (msOpt : Option MatchState)
    (now : Int) : ProcStep :=
  match msOpt with
  | none => ⟨p, s, []⟩
  | some ms =>
      let st1 : ProcStep :=
        if ¬ p.match_persisted then
          if match_exists s p.match_id then ⟨{ p with match_persisted := true }, s, []⟩
          else
            match create_match s ms p.match_id with
            | (s', some _) => ⟨{ p with match_persisted := true }, s',
                [PersistCall.createMatchCall p.match_id]⟩
            | (s', none) => ⟨p, s', [PersistCall.createMatchCall p.match_id]⟩
        else if p.match_persisted = true ∧ p.match_state.isSome ∧ has_match_changes p ms = true then
          ⟨p, (update_match s p.match_id ms).1, [PersistCall.updateMatchCall p.match_id]⟩
        else ⟨p, s, []⟩
      let st2 := set_match_state st1.proc st1.store ms now
      ⟨st2.proc, st2.store, st1.calls ++ st2.calls⟩

/-- `MatchProcessor._handle_round_data`. -/
def handle_round_data (p : ProcState) (s : Store) (rsOpt : Option RoundState)
    (now : Int) : ProcStep :=
  match rsOpt with
  | none => ⟨p, s, []⟩
  | some rs =>
      let st1 : ProcStep :=
        if p.match_state.isSome ∧ p.current_round ≠ rs.round_number then
          handle_round_transition p s p.current_round rs.round_number rs now
        else ⟨p, s, []⟩
      let p2 := match st1.proc.round_state with
        | some o =>
            if o.phase ≠ rs.phase then { st1.proc with previous_round_phase := some o.phase }
            else st1.proc
        | none => st1.proc
      let st2 := set_round_state p2 st1.store rs now
      ⟨st2.proc, st2.store, st1.calls ++ st2.calls⟩

/-- `MatchProcessor._handle_player_data`.  The result of
`ensure_steam_account` (a pure read) is discarded by the source; the
fresh state is buffered unconditionally and the stats upsert runs
whenever the match is persisted. -/
def handle_player_data (p : ProcState) (s : Store) (psOpt : Option PlayerState) : ProcStep :=
  match psOpt with
  | none => ⟨p, s, []⟩
  | some ps =>
      let p1 := { p with
        player_states_history := p.player_states_history ++ [ps],
        player_states := alistInsert p.player_states ps.steam_id ps }
      if p1.match_persisted then
        ⟨p1, (update_player_match_stats s p1.match_id ps).1,
         [PersistCall.updateMatchStatsCall p1.match_id]⟩
      else ⟨p1, s, []⟩

/-- `MatchProcessor._handle_weapon_data`: an empty weapon dict is falsy
and appends nothing. -/
def handle_weapon_data (p : ProcState) (ws : List (String × WeaponState)) : ProcState :=
  if ws.isEmpty then p
  else { p with weapon_states_history := p.weapon_states_history ++ [ws],
                weapon_states := ws }

/-- Steps 4–9 of `MatchProcessor.handle_payload`, reached only past the
phase gate: match data, round data, then (owner only) player and weapon
data. -/
def handle_payload_core (p1 : ProcState) (s : Store) (exr2 : ExtractResult)
    (is_owner_playing : Bool) (now : Int) : ProcStep :=
  let st1 := handle_match_data p1 s exr2.match_state now
  let st2 := handle_round_data st1.proc st1.store exr2.round_state now
  if is_owner_playing then
    let st3 := handle_player_data st2.proc st2.store exr2.player_state
    let p4 := handle_weapon_data st3.proc exr2.weapon_states
    ⟨p4, st3.store, st1.calls ++ st2.calls ++ st3.calls⟩
  else ⟨st2.proc, st2.store, st1.calls ++ st2.calls⟩

/-- The processor state `handle_payload` leaves behind when it returns
at (or before) the phase gate: only the last-update time and the
extractor's diff state have changed. -/
def gate_return (p : ProcState) (payload : Payload) (now : Int) : ProcState :=
  { p with
      last_update_time := now,
      extractor := (extractor_process_payload p.extractor payload now).1 }

/-- `MatchProcessor.handle_payload`.  With a missing match state the
phase gate raises `AttributeError`, which the surrounding handler
catches after the extractor state was already updated. -/
def handle_payload (p : ProcState) (s : Store) (payload : Payload)
    (is_owner_playing : Bool) (now : Int) : ProcStep :=
  let exr := extractor_process_payload p.extractor payload now
  let p1 := gate_return p payload now
  match exr.2.match_state with
  | none => ⟨p1, s, []⟩
  | some ms =>
      if ¬ match_phase_nominal ms then ⟨p1, s, []⟩
      else handle_payload_core p1 s exr.2 is_owner_playing now

/-- `MatchProcessor.is_match_completed`. -/
def is_match_completed (p : ProcState) (now : Int) : Bool :=
  p.is_completed ∨ now - p.last_update_time > 600

/-- Feed a sequence of snapshots to a single processor, accumulating
the write calls (each trace entry: payload, `is_owner_playing`, server
timestamp). -/
def handle_trace (p : ProcState) (s : Store) (trace : List (Payload × Bool × Int)) : ProcStep :=
  trace.foldl (fun acc pb =>
    let st := handle_payload acc.proc acc.store pb.1 pb.2.1 pb.2.2
    ⟨st.proc, st.store, acc.calls ++ st.calls⟩) ⟨p, s, []⟩

/-! ## The match manager (`match_manager.py`) -/

/-- The manager's map `full_match_id ↦ MatchProcessor`. -/
structure ManagerState where
  match_processors : List (String × ProcState)
deriving DecidableEq, Repr

/-- `MatchManager.is_menu_payload`. -/
def is_menu_payload (p : Payload) : Bool :=
  match p.player with
  | none => false
  | some pd => pd.activity = some "menu"

/-- `MatchManager._cleanup_completed_matches`. -/
def cleanup_completed_matches (m : ManagerState) (now : Int) : ManagerState :=
  { match_processors := m.match_processors.filter (fun kv => ¬ is_match_completed kv.2 now) }

/-- `MatchManager.route_payload`.  `uuidStr` is the UUID drawn by
`generate_match_id` when a new processor is minted.  Returns whether
the payload was processed, with the new manager and store states. -/
def route_payload (m : ManagerState) (s : Store) (payload : Payload)
    (uuidStr : String) (now : Int) : Bool × ManagerState × Store :=
  match extract_base_match_id payload with
  | none => (false, m, s)
  | some base =>
      let ownerOpt := payload.provider.bind (fun pr => pr.steamid)
      let playerOpt := payload.player.bind (fun pd => pd.steamid)
      if pyTruthyStr ownerOpt = true ∧ pyTruthyStr playerOpt = true then
        let is_owner_playing := ownerOpt = playerOpt
        match m.match_processors.find? (fun kv => kv.2.base_match_id = base) with
        | some kv =>
            let st := handle_payload kv.2 s payload is_owner_playing now
            let procs := m.match_processors.map
              (fun kv' => if kv'.1 = kv.1 then (kv'.1, st.proc) else kv')
            (true, cleanup_completed_matches { match_processors := procs } now, st.store)
        | none =>
            let full := base ++ "_" ++ uuidStr
            let proc := initProcessor base full (ownerOpt.getD "") now
            let st := handle_payload proc s payload is_owner_playing now
            let m1 : ManagerState :=
              { match_processors := m.match_processors ++ [(full, st.proc)] }
            (true, cleanup_completed_matches m1 now, st.store)
      else (false, m, s)

/-- Route a whole trace of snapshots through the manager (each entry:
payload, minted UUID, server timestamp). -/
def route_trace (m : ManagerState) (s : Store)
    (trace : List (Payload × String × Int)) : ManagerState × Store :=
  trace.foldl (fun acc e =>
    let r := route_payload acc.1 acc.2 e.1 e.2.1 e.2.2
    (r.2.1, r.2.2)) (m, s)

/-! ## Claim C6: the unknown/warmup phase gate -/

theorem extractor_process_payload_snd (es : ExtractorState) (p : Payload) (ts : Int) :
    (extractor_process_payload es p ts).2
      = { match_state := extract_match_state p ts,
          player_state := extract_player_state p ts,
          round_state := extract_round_state p ts,
          weapon_states := extract_all_weapons p ts } := rfl

/-- C6: when a payload's extracted match state has phase `unknown` or
`warmup`, `handle_payload` returns without invoking any persistence
write (no match, round, player-state, weapon, or match-stat call; the
store is untouched) and without altering the processor's match / round /
player / weapon tracking state beyond the last-update time (and the
extractor's internal diff state, which is updated before the gate). -/
theorem c6_phase_gate (p : ProcState) (s : Store) (payload : Payload) (b : Bool)
    (now : Int) (ms : MatchState)
    (hms : extract_match_state payload now = some ms)
    (hphase : ms.phase = "unknown" ∨ ms.phase = "warmup") :
    (handle_payload p s payload b now).store = s ∧
    (handle_payload p s payload b now).calls = [] ∧
    (handle_payload p s payload b now).proc.match_state = p.match_state ∧
    (handle_payload p s payload b now).proc.round_state = p.round_state ∧
    (handle_payload p s payload b now).proc.current_round = p.current_round ∧
    (handle_payload p s payload b now).proc.player_states_history = p.player_states_history ∧
    (handle_payload p s payload b now).proc.player_states = p.player_states ∧
    (handle_payload p s payload b now).proc.weapon_states_history = p.weapon_states_history ∧
    (handle_payload p s payload b now).proc.weapon_states = p.weapon_states ∧
    (handle_payload p s payload b now).proc.match_persisted = p.match_persisted ∧
    (handle_payload p s payload b now).proc.rounds_persisted = p.rounds_persisted ∧
    (handle_payload p s payload b now).proc.is_completed = p.is_completed ∧
    (handle_payload p s payload b now).proc.last_update_time = now := by
  have hnom : match_phase_nominal ms = false := by
    rcases hphase with h | h <;> simp [match_phase_nominal, h]
  have hred : handle_payload p s payload b now
      = ⟨gate_return p payload now, s, []⟩ := by
    unfold handle_payload gate_return
    simp only [extractor_process_payload_snd, hms, hnom]
    simp
  rw [hred]
  exact ⟨rfl, rfl, rfl, rfl, rfl, rfl, rfl, rfl, rfl, rfl, rfl, rfl, rfl⟩

/-- A warmup snapshot. -/
def c6Payload : Payload :=
  { map := some { name := some "de_dust2", mode := some "competitive",
                  phase := some "warmup", round := some 0,
                  team_ct_score := some 0, team_t_score := some 0 }
    provider := some { steamid := some "76561198000000001", timestamp := some 1700000000 }
    round := some { phase := some "freezetime", win_team := none, bomb := none }
    player := some { steamid := some "76561198000000001", name := some "A",
                     team := some "CT", activity := some "playing",
                     state := some { health := some 100, armor := some 0,
                                     money := some 800, equip_value := some 200,
                                     round_kills := some 0 },
                     match_stats := some { kills := some 0, deaths := some 0,
                                           assists := some 0, mvps := some 0,
                                           score := some 0 },
                     weapons := some [] } }

/-- The empty store. -/
def emptyStore : Store :=
  { match_rows := [], rounds := [], player_round_states := [], player_weapons := [],
    player_match_stats := [], accounts := [], weapons := [] }

/-- The match state extracted from the warmup snapshot. -/
def c6Ms : MatchState :=
  { match_id := "de_dust2_competitive_76561198000000001",
    mode := "competitive", map_name := "de_dust2", phase := "warmup",
    round := 1, team_ct_score := 0, team_t_score := 0, timestamp := 1700000000 }

/-- Witness for C6 at a concrete warmup snapshot on a fresh processor. -/
theorem c6_phase_gate_witness :
    extract_match_state c6Payload 1700000000 = some c6Ms ∧
    (c6Ms.phase = "unknown" ∨ c6Ms.phase = "warmup") ∧
    (handle_payload (initProcessor "b" "b_u" "76561198000000001" 1700000000)
        emptyStore c6Payload true 1700000000).store = emptyStore ∧
    (handle_payload (initProcessor "b" "b_u" "76561198000000001" 1700000000)
        emptyStore c6Payload true 1700000000).calls = [] ∧
    (handle_payload (initProcessor "b" "b_u" "76561198000000001" 1700000000)
        emptyStore c6Payload true 1700000000).proc.match_persisted
      = (initProcessor "b" "b_u" "76561198000000001" 1700000000).match_persisted := by
  refine ⟨by decide, Or.inr (by decide), ?_, ?_, ?_⟩
  · exact (c6_phase_gate (initProcessor "b" "b_u" "76561198000000001" 1700000000)
      emptyStore c6Payload true 1700000000 c6Ms (by decide) (Or.inr (by decide))).1
  · exact (c6_phase_gate (initProcessor "b" "b_u" "76561198000000001" 1700000000)
      emptyStore c6Payload true 1700000000 c6Ms (by decide) (Or.inr (by decide))).2.1
  · exact (c6_phase_gate (initProcessor "b" "b_u" "76561198000000001" 1700000000)
      emptyStore c6Payload true 1700000000 c6Ms (by decide) (Or.inr (by decide))).2.2.2.2.2.2.2.2.2.1

/-! ## Claim C2: at most one `create_match` call per processor -/

/-- Recognize a `create_match` call in the write log. -/
def is_create_match_call : PersistCall → Bool
  | PersistCall.createMatchCall _ => true
  | _ => false

theorem persist_round_data_cm (p : ProcState) (s : Store) (rn : Int) :
    (persist_round_data p s rn).calls.countP is_create_match_call = 0 ∧
    (persist_round_data p s rn).proc.match_persisted = p.match_persisted := by
  unfold persist_round_data
  split
  · exact ⟨rfl, rfl⟩
  · split
    · exact ⟨rfl, rfl⟩
    · split
      · exact ⟨rfl, rfl⟩
      · refine ⟨?_, rfl⟩
        dsimp only
        repeat' split
        all_goals simp [is_create_match_call]

theorem complete_round_cm (p : ProcState) (s : Store) (rn : Int) (now : Int) :
    (complete_round p s rn now).calls.countP is_create_match_call = 0 ∧
    (complete_round p s rn now).proc.match_persisted = p.match_persisted := by
  unfold complete_round
  dsimp only
  constructor
  · rw [List.countP_append, (persist_round_data_cm p _ rn).1, Nat.add_zero]
    split_ifs <;> simp [is_create_match_call]
  · exact (persist_round_data_cm p _ rn).2

theorem ensure_round_cm (p : ProcState) (s : Store) (rn : Int) (phase : String)
    (winning cond : Option String) (ts : Option Int) (now : Int) :
    (ensure_round p s rn phase winning cond ts now).2.countP is_create_match_call = 0 := by
  unfold ensure_round
  split_ifs <;> simp [is_create_match_call]

theorem round_transition_tail_cm (st1 : ProcStep) (new_round : Int) (nrs : RoundState)
    (now : Int) :
    (round_transition_tail st1 new_round nrs now).calls.countP is_create_match_call
        = st1.calls.countP is_create_match_call ∧
    (round_transition_tail st1 new_round nrs now).proc.match_persisted
        = st1.proc.match_persisted := by
  unfold round_transition_tail
  split_ifs <;> simp [List.countP_append, ensure_round_cm]

theorem handle_round_transition_cm (p : ProcState) (s : Store)
    (old_round new_round : Int) (nrs : RoundState) (now : Int) :
    (handle_round_transition p s old_round new_round nrs now).calls.countP
        is_create_match_call = 0 ∧
    (handle_round_transition p s old_round new_round nrs now).proc.match_persisted
        = p.match_persisted := by
  unfold handle_round_transition
  refine ⟨(round_transition_tail_cm _ _ _ _).1.trans ?_,
          (round_transition_tail_cm _ _ _ _).2.trans ?_⟩
  · split_ifs <;> first | exact (complete_round_cm _ s old_round now).1 | rfl
  · split_ifs <;> first | exact (complete_round_cm _ s old_round now).2 | rfl

theorem completion_fold_cm (l : List Int) :
    ∀ acc : ProcStep,
      (l.foldl completion_round_step acc).calls.countP is_create_match_call
        = acc.calls.countP is_create_match_call ∧
      (l.foldl completion_round_step acc).proc.match_persisted
        = acc.proc.match_persisted := by
  induction l with
  | nil => intro acc; exact ⟨rfl, rfl⟩
  | cons rn l ih =>
      intro acc
      rw [List.foldl_cons]
      refine ⟨((ih _).1).trans ?_, ((ih _).2).trans ?_⟩
      · unfold completion_round_step
        split
        · dsimp only
          rw [List.countP_append, (persist_round_data_cm _ _ rn).1, Nat.add_zero]
        · rfl
      · unfold completion_round_step
        split
        · exact (persist_round_data_cm _ _ rn).2
        · rfl

theorem handle_match_completion_cm (p : ProcState) (s : Store) (now : Int) :
    (handle_match_completion p s now).calls.countP is_create_match_call = 0 ∧
    (handle_match_completion p s now).proc.match_persisted = p.match_persisted := by
  unfold handle_match_completion
  split
  · exact ⟨rfl, rfl⟩
  · dsimp only
    split
    · exact ⟨rfl, rfl⟩
    · constructor
      · rw [List.countP_append, (completion_fold_cm _ _).1]
        simp [is_create_match_call]
      · exact (completion_fold_cm _ _).2

theorem update_round_winner_task_cm (p : ProcState) (s : Store) (rn : Int)
    (win : String) (cond : Option String) (now : Int) :
    (update_round_winner_task p s rn win cond now).2.countP is_create_match_call = 0 := by
  unfold update_round_winner_task
  split_ifs <;> simp [is_create_match_call]

theorem set_match_state_cm (p : ProcState) (s : Store) (ms : MatchState) (now : Int) :
    (set_match_state p s ms now).calls.countP is_create_match_call = 0 ∧
    (set_match_state p s ms now).proc.match_persisted = p.match_persisted := by
  unfold set_match_state
  dsimp only
  split
  · split_ifs
    · exact ⟨(handle_match_completion_cm _ s now).1,
             (handle_match_completion_cm _ s now).2⟩
    · exact ⟨rfl, rfl⟩
  · exact ⟨rfl, rfl⟩

theorem set_round_state_cm (p : ProcState) (s : Store) (rs : RoundState) (now : Int) :
    (set_round_state p s rs now).calls.countP is_create_match_call = 0 ∧
    (set_round_state p s rs now).proc.match_persisted = p.match_persisted := by
  unfold set_round_state
  dsimp only
  split
  · split_ifs
    · split
      · split_ifs
        · exact ⟨update_round_winner_task_cm _ s _ _ _ now, rfl⟩
        · exact ⟨rfl, rfl⟩
      · exact ⟨rfl, rfl⟩
    · exact ⟨rfl, rfl⟩
  · exact ⟨rfl, rfl⟩

theorem handle_round_data_cm (p : ProcState) (s : Store) (rsOpt : Option RoundState)
    (now : Int) :
    (handle_round_data p s rsOpt now).calls.countP is_create_match_call = 0 ∧
    (handle_round_data p s rsOpt now).proc.match_persisted = p.match_persisted := by
  unfold handle_round_data
  split
  · exact ⟨rfl, rfl⟩
  · rename_i rs
    dsimp only
    have hst1 : ∀ st1 : ProcStep,
        st1.calls.countP is_create_match_call = 0 →
        st1.proc.match_persisted = p.match_persisted →
        ∀ p2 : ProcState, p2.match_persisted = st1.proc.match_persisted →
        ((st1.calls ++ (set_round_state p2 st1.store rs now).calls).countP
            is_create_match_call = 0 ∧
          (set_round_state p2 st1.store rs now).proc.match_persisted = p.match_persisted) := by
      intro st1 hc hp p2 hp2
      constructor
      · rw [List.countP_append, hc, (set_round_state_cm p2 st1.store rs now).1]
      · rw [(set_round_state_cm p2 st1.store rs now).2, hp2, hp]
    split_ifs with h1
    · refine hst1 _ (handle_round_transition_cm p s _ _ rs now).1
        (handle_round_transition_cm p s _ _ rs now).2 _ ?_
      split
      · split_ifs <;> rfl
      · rfl
    · refine hst1 ⟨p, s, []⟩ rfl rfl _ ?_
      split
      · split_ifs <;> rfl
      · rfl

theorem handle_player_data_cm (p : ProcState) (s : Store) (psOpt : Option PlayerState) :
    (handle_player_data p s psOpt).calls.countP is_create_match_call = 0 ∧
    (handle_player_data p s psOpt).proc.match_persisted = p.match_persisted := by
  unfold handle_player_data
  split
  · exact ⟨rfl, rfl⟩
  · dsimp only
    split <;> exact ⟨rfl, rfl⟩

theorem handle_weapon_data_persisted (p : ProcState) (ws : List (String × WeaponState)) :
    (handle_weapon_data p ws).match_persisted = p.match_persisted := by
  unfold handle_weapon_data
  split <;> rfl

theorem handle_match_data_cm (p : ProcState) (s : Store) (msOpt : Option MatchState)
    (now : Int) :
    ((handle_match_data p s msOpt now).calls.countP is_create_match_call
        ≤ if p.match_persisted then 0 else 1) ∧
    (p.match_persisted = true → (handle_match_data p s msOpt now).proc.match_persisted = true) ∧
    (1 ≤ (handle_match_data p s msOpt now).calls.countP is_create_match_call →
      (handle_match_data p s msOpt now).proc.match_persisted = true) := by
  unfold handle_match_data
  split
  · refine ⟨?_, fun h => h, ?_⟩
    · split_ifs <;> simp
    · intro h; simp at h
  · rename_i ms
    dsimp only
    by_cases hper : p.match_persisted = true
    · rw [if_neg (by simp [hper])]
      split_ifs with hch
      · rw [hper]
        refine ⟨?_, fun _ => ?_, fun _ => ?_⟩ <;>
          simp [List.countP_append, is_create_match_call,
                (set_match_state_cm p _ ms now).1, (set_match_state_cm p _ ms now).2, hper]
      · rw [hper]
        refine ⟨?_, fun _ => ?_, fun _ => ?_⟩ <;>
          simp [List.countP_append, is_create_match_call,
                (set_match_state_cm p _ ms now).1, (set_match_state_cm p _ ms now).2, hper]
    · have hper' : p.match_persisted = false := by
        cases h : p.match_persisted
        · rfl
        · exact absurd h hper
      rw [if_pos (by simp [hper'])]
      by_cases hex : match_exists s p.match_id = true
      · rw [if_pos hex]
        refine ⟨?_, fun h => absurd h hper, fun _ => ?_⟩
        · rw [hper']
          simp [List.countP_append,
                (set_match_state_cm { p with match_persisted := true } s ms now).1]
        · rw [(set_match_state_cm { p with match_persisted := true } s ms now).2]
      · rw [if_neg hex]
        have hcm : create_match s ms p.match_id
            = ({ s with match_rows := s.match_rows ++
                [{ match_id := p.match_id, game_mode := ms.mode, map_name := ms.map_name,
                   start_timestamp := ms.timestamp, end_timestamp := none,
                   rounds_played := ms.round, team_ct_score := ms.team_ct_score,
                   team_t_score := ms.team_t_score }] }, some p.match_id) := by
          unfold create_match
          rw [if_neg hex]
        rw [hcm]
        dsimp only
        refine ⟨?_, fun h => absurd h hper, fun _ => ?_⟩
        · rw [hper']
          simp [List.countP_append, is_create_match_call,
                (set_match_state_cm { p with match_persisted := true } _ ms now).1]
        · rw [(set_match_state_cm { p with match_persisted := true } _ ms now).2]

theorem handle_payload_core_cm (p1 : ProcState) (s : Store) (exr2 : ExtractResult)
    (b : Bool) (now : Int) :
    ((handle_payload_core p1 s exr2 b now).calls.countP is_create_match_call
        ≤ if p1.match_persisted then 0 else 1) ∧
    (p1.match_persisted = true →
      (handle_payload_core p1 s exr2 b now).proc.match_persisted = true) ∧
    (1 ≤ (handle_payload_core p1 s exr2 b now).calls.countP is_create_match_call →
      (handle_payload_core p1 s exr2 b now).proc.match_persisted = true) := by
  unfold handle_payload_core
  dsimp only
  set st1 := handle_match_data p1 s exr2.match_state now with hst1
  set st2 := handle_round_data st1.proc st1.store exr2.round_state now with hst2
  set st3 := handle_player_data st2.proc st2.store exr2.player_state with hst3
  have h1 := handle_match_data_cm p1 s exr2.match_state now
  rw [← hst1] at h1
  have h2 := handle_round_data_cm st1.proc st1.store exr2.round_state now
  rw [← hst2] at h2
  have h3 := handle_player_data_cm st2.proc st2.store exr2.player_state
  rw [← hst3] at h3
  split
  · refine ⟨?_, fun hp => ?_, fun hcount => ?_⟩
    · rw [List.countP_append, List.countP_append, h2.1, h3.1]
      simpa using h1.1
    · rw [handle_weapon_data_persisted, h3.2, h2.2]
      exact h1.2.1 hp
    · rw [List.countP_append, List.countP_append, h2.1, h3.1] at hcount
      rw [handle_weapon_data_persisted, h3.2, h2.2]
      exact h1.2.2 (by simpa using hcount)
  · refine ⟨?_, fun hp => ?_, fun hcount => ?_⟩
    · rw [List.countP_append, h2.1]
      simpa using h1.1
    · rw [h2.2]
      exact h1.2.1 hp
    · rw [List.countP_append, h2.1] at hcount
      rw [h2.2]
      exact h1.2.2 (by simpa using hcount)

theorem handle_payload_cm (p : ProcState) (s : Store) (payload : Payload) (b : Bool)
    (now : Int) :
    ((handle_payload p s payload b now).calls.countP is_create_match_call
        ≤ if p.match_persisted then 0 else 1) ∧
    (p.match_persisted = true →
      (handle_payload p s payload b now).proc.match_persisted = true) ∧
    (1 ≤ (handle_payload p s payload b now).calls.countP is_create_match_call →
      (handle_payload p s payload b now).proc.match_persisted = true) := by
  unfold handle_payload
  dsimp only
  split
  · refine ⟨by split_ifs <;> simp, fun h => h, fun h => by simp at h⟩
  · rename_i ms heq
    by_cases hnom : match_phase_nominal ms = true
    · rw [if_neg (by simp [hnom])]
      exact handle_payload_core_cm (gate_return p payload now) s
        (extractor_process_payload p.extractor payload now).2 b now
    · rw [if_pos (by simp [hnom])]
      refine ⟨by split_ifs <;> simp, fun h => h, fun h => by simp at h⟩

theorem handle_trace_shift (trace : List (Payload × Bool × Int)) :
    ∀ (p : ProcState) (s : Store) (c : List PersistCall),
      (trace.foldl (fun (acc : ProcStep) (pb : Payload × Bool × Int) =>
          let st := handle_payload acc.proc acc.store pb.1 pb.2.1 pb.2.2
          ⟨st.proc, st.store, acc.calls ++ st.calls⟩) ⟨p, s, c⟩).calls
        = c ++ (handle_trace p s trace).calls ∧
      (trace.foldl (fun (acc : ProcStep) (pb : Payload × Bool × Int) =>
          let st := handle_payload acc.proc acc.store pb.1 pb.2.1 pb.2.2
          ⟨st.proc, st.store, acc.calls ++ st.calls⟩) ⟨p, s, c⟩).proc
        = (handle_trace p s trace).proc := by
  induction trace with
  | nil =>
      intro p s c
      exact ⟨(List.append_nil c).symm, rfl⟩
  | cons e tr ih =>
      intro p s c
      rw [List.foldl_cons]
      have hunf : handle_trace p s (e :: tr)
          = tr.foldl (fun (acc : ProcStep) (pb : Payload × Bool × Int) =>
              let st := handle_payload acc.proc acc.store pb.1 pb.2.1 pb.2.2
              ⟨st.proc, st.store, acc.calls ++ st.calls⟩)
            ⟨(handle_payload p s e.1 e.2.1 e.2.2).proc,
             (handle_payload p s e.1 e.2.1 e.2.2).store,
             [] ++ (handle_payload p s e.1 e.2.1 e.2.2).calls⟩ := by
        unfold handle_trace
        rw [List.foldl_cons]
      rw [hunf]
      refine ⟨?_, ?_⟩
      · rw [(ih _ _ _).1, (ih _ _ _).1]
        simp [List.append_assoc]
      · rw [(ih _ _ _).2, (ih _ _ _).2]

theorem handle_trace_cm (trace : List (Payload × Bool × Int)) :
    ∀ (p : ProcState) (s : Store),
      (handle_trace p s trace).calls.countP is_create_match_call
        ≤ if p.match_persisted then 0 else 1 := by
  induction trace with
  | nil =>
      intro p s
      have h0 : (handle_trace p s []).calls = [] := rfl
      rw [h0]
      split_ifs <;> simp
  | cons e tr ih =>
      intro p s
      have hcalls : (handle_trace p s (e :: tr)).calls
          = (handle_payload p s e.1 e.2.1 e.2.2).calls
            ++ (handle_trace (handle_payload p s e.1 e.2.1 e.2.2).proc
                  (handle_payload p s e.1 e.2.1 e.2.2).store tr).calls := by
        have hunf : handle_trace p s (e :: tr)
            = tr.foldl (fun (acc : ProcStep) (pb : Payload × Bool × Int) =>
                let st := handle_payload acc.proc acc.store pb.1 pb.2.1 pb.2.2
                ⟨st.proc, st.store, acc.calls ++ st.calls⟩)
              ⟨(handle_payload p s e.1 e.2.1 e.2.2).proc,
               (handle_payload p s e.1 e.2.1 e.2.2).store,
               [] ++ (handle_payload p s e.1 e.2.1 e.2.2).calls⟩ := by
          unfold handle_trace
          rw [List.foldl_cons]
        rw [hunf, (handle_trace_shift tr _ _ _).1]
        simp
      rw [hcalls, List.countP_append]
      have h1 := handle_payload_cm p s e.1 e.2.1 e.2.2
      have hrest := ih (handle_payload p s e.1 e.2.1 e.2.2).proc
        (handle_payload p s e.1 e.2.1 e.2.2).store
      by_cases hp : p.match_persisted = true
      · rw [if_pos hp]
        have hc1 : (handle_payload p s e.1 e.2.1 e.2.2).calls.countP
            is_create_match_call = 0 := by
          have hb := h1.1
          rw [if_pos hp] at hb
          omega
        have hpost := h1.2.1 hp
        rw [if_pos hpost] at hrest
        omega
      · rw [if_neg hp]
        have hb : (handle_payload p s e.1 e.2.1 e.2.2).calls.countP
            is_create_match_call ≤ 1 := by
          have hb0 := h1.1
          rw [if_neg hp] at hb0
          exact hb0
        rcases Nat.lt_or_ge
          ((handle_payload p s e.1 e.2.1 e.2.2).calls.countP is_create_match_call)
          1 with hlt | hge
        · have hrest2 : (handle_trace (handle_payload p s e.1 e.2.1 e.2.2).proc
              (handle_payload p s e.1 e.2.1 e.2.2).store tr).calls.countP
                is_create_match_call ≤ 1 := by
            cases hmp : (handle_payload p s e.1 e.2.1 e.2.2).proc.match_persisted with
            | false =>
                rw [hmp] at hrest
                simpa using hrest
            | true =>
                rw [hmp, if_pos rfl] at hrest
                omega
          omega
        · have hpost := h1.2.2 hge
          rw [if_pos hpost] at hrest
          omega

/-- C2: over any sequence of snapshots delivered to a single match
processor, the processor invokes the `create_match` persistence
operation at most once. -/
theorem c2_create_match_at_most_once (base full owner : String) (t0 : Int)
    (s : Store) (trace : List (Payload × Bool × Int)) :
    (handle_trace (initProcessor base full owner t0) s trace).calls.countP
        is_create_match_call ≤ 1 := by
  have h := handle_trace_cm trace (initProcessor base full owner t0) s
  simpa [initProcessor] using h

/-! ## Row provenance: which steam ids can acquire new rows

Groundwork for claims C3 (no rows for unknown accounts) and C7
(spectator snapshots write no rows for the spectated player). -/

theorem mem_of_getLast?_eq {α : Type _} (l : List α) (x : α) (h : l.getLast? = some x) :
    x ∈ l := by
  obtain ⟨hne, hx⟩ := List.mem_getLast?_eq_getLast (Option.mem_def.mpr h)
  rw [hx]
  exact List.getLast_mem hne

theorem create_match_frame (s : Store) (ms : MatchState) (mid : String) :
    (create_match s ms mid).1.player_round_states = s.player_round_states ∧
    (create_match s ms mid).1.player_weapons = s.player_weapons ∧
    (create_match s ms mid).1.player_match_stats = s.player_match_stats ∧
    (create_match s ms mid).1.accounts = s.accounts := by
  unfold create_match
  split_ifs <;> exact ⟨rfl, rfl, rfl, rfl⟩

theorem update_match_frame (s : Store) (mid : String) (ms : MatchState) :
    (update_match s mid ms).1.player_round_states = s.player_round_states ∧
    (update_match s mid ms).1.player_weapons = s.player_weapons ∧
    (update_match s mid ms).1.player_match_stats = s.player_match_stats ∧
    (update_match s mid ms).1.accounts = s.accounts :=
  ⟨rfl, rfl, rfl, rfl⟩

theorem complete_match_frame (s : Store) (mid : String) (ct t total ts : Int) :
    (complete_match s mid ct t total ts).1.player_round_states = s.player_round_states ∧
    (complete_match s mid ct t total ts).1.player_weapons = s.player_weapons ∧
    (complete_match s mid ct t total ts).1.player_match_stats = s.player_match_stats ∧
    (complete_match s mid ct t total ts).1.accounts = s.accounts :=
  ⟨rfl, rfl, rfl, rfl⟩

theorem create_round_frame (s : Store) (mid : String) (rn : Int) (phase : String)
    (w c : Option String) (ts : Option Int) :
    (create_round s mid rn phase w c ts).1.player_round_states = s.player_round_states ∧
    (create_round s mid rn phase w c ts).1.player_weapons = s.player_weapons ∧
    (create_round s mid rn phase w c ts).1.player_match_stats = s.player_match_stats ∧
    (create_round s mid rn phase w c ts).1.accounts = s.accounts := by
  unfold create_round
  split
  · exact ⟨rfl, rfl, rfl, rfl⟩
  · split_ifs <;> exact ⟨rfl, rfl, rfl, rfl⟩

theorem update_round_winner_frame (s : Store) (mid : String) (rn : Int)
    (w : String) (c : Option String) :
    (update_round_winner s mid rn w c).1.player_round_states = s.player_round_states ∧
    (update_round_winner s mid rn w c).1.player_weapons = s.player_weapons ∧
    (update_round_winner s mid rn w c).1.player_match_stats = s.player_match_stats ∧
    (update_round_winner s mid rn w c).1.accounts = s.accounts :=
  ⟨rfl, rfl, rfl, rfl⟩

theorem foldl_mem_provenance {α β : Type _} (step : List α → β → List α)
    (P : α → β → Prop)
    (h : ∀ t b r, r ∈ step t b → r ∈ t ∨ P r b) :
    ∀ (l : List β) (t : List α) (r : α), r ∈ l.foldl step t → r ∈ t ∨ ∃ b ∈ l, P r b := by
  intro l
  induction l with
  | nil => intro t r hr; exact Or.inl hr
  | cons b l ih =>
      intro t r hr
      rw [List.foldl_cons] at hr
      rcases ih (step t b) r hr with hr' | ⟨b', hb', hp⟩
      · rcases h t b r hr' with hr'' | hp
        · exact Or.inl hr''
        · exact Or.inr ⟨b, List.mem_cons_self b l, hp⟩
      · exact Or.inr ⟨b', List.mem_cons_of_mem b hb', hp⟩

theorem batch_player_state_step_provenance (mrows : List MatchRow)
    (accounts : List (String × String)) (mid : String) (rn : Int)
    (tbl : List PlayerRoundStateRow) (ps : PlayerState) (r : PlayerRoundStateRow)
    (hr : r ∈ batch_player_state_step mrows accounts mid rn tbl ps) :
    r ∈ tbl ∨ (account_row_exists accounts r.steam_account = true ∧
      r.steam_account = ps.steam_id) := by
  unfold batch_player_state_step create_player_round_state insert_player_round_state at hr
  split at hr
  · exact Or.inl hr
  · split at hr
    · split at hr
      · rename_i hcond
        rcases List.mem_append.mp hr with hmem | hmem
        · exact Or.inl hmem
        · rcases List.mem_singleton.mp hmem with rfl
          refine Or.inr ⟨?_, rfl⟩
          exact hcond.2.1
      · exact Or.inl hr
    · exact Or.inl hr

theorem batch_create_player_states_provenance (s : Store) (mid : String) (rn : Int)
    (psl : List PlayerState) (r : PlayerRoundStateRow)
    (hr : r ∈ (batch_create_player_states s mid rn psl).player_round_states) :
    r ∈ s.player_round_states ∨ (account_row_exists s.accounts r.steam_account = true ∧
      ∃ ps ∈ psl, r.steam_account = ps.steam_id) := by
  have h := foldl_mem_provenance (batch_player_state_step s.match_rows s.accounts mid rn)
    (fun r ps => account_row_exists s.accounts r.steam_account = true ∧
      r.steam_account = ps.steam_id)
    (fun t b r hmem => batch_player_state_step_provenance s.match_rows s.accounts mid rn t b r hmem)
    psl s.player_round_states r hr
  rcases h with h | ⟨ps, hps, hfk, hsid⟩
  · exact Or.inl h
  · exact Or.inr ⟨hfk, ps, hps, hsid⟩

theorem create_player_weapon_step_provenance (weapons : List (String × Int))
    (mrows : List MatchRow) (accounts : List (String × String)) (mid : String)
    (rn : Int) (sid : String) (tbl : List PlayerWeaponRow) (w : WeaponState)
    (r : PlayerWeaponRow)
    (hr : r ∈ create_player_weapon_step weapons mrows accounts mid rn sid tbl w) :
    r ∈ tbl ∨ (account_row_exists accounts r.steam_account = true ∧
      r.steam_account = sid) := by
  unfold create_player_weapon_step insert_player_weapon at hr
  split at hr
  · exact Or.inl hr
  · split at hr
    · rename_i hcond
      rcases List.mem_append.mp hr with hmem | hmem
      · exact Or.inl hmem
      · rcases List.mem_singleton.mp hmem with rfl
        exact Or.inr ⟨hcond.2.1, rfl⟩
    · exact Or.inl hr

theorem batch_weapon_snapshot_step_provenance (weapons : List (String × Int))
    (mrows : List MatchRow) (accounts : List (String × String)) (mid : String)
    (rn : Int) (sid : String) (tbl : List PlayerWeaponRow)
    (dict : List (String × WeaponState)) (r : PlayerWeaponRow)
    (hr : r ∈ batch_weapon_snapshot_step weapons mrows accounts mid rn sid tbl dict) :
    r ∈ tbl ∨ (account_row_exists accounts r.steam_account = true ∧
      r.steam_account = sid) := by
  unfold batch_weapon_snapshot_step at hr
  have h := foldl_mem_provenance
    (fun t (sw : String × WeaponState) =>
      create_player_weapon_step weapons mrows accounts mid rn sid t sw.2)
    (fun r _ => account_row_exists accounts r.steam_account = true ∧ r.steam_account = sid)
    (fun t b r hmem =>
      create_player_weapon_step_provenance weapons mrows accounts mid rn sid t b.2 r hmem)
    _ tbl r hr
  rcases h with h | ⟨_, _, hp⟩
  · exact Or.inl h
  · exact Or.inr hp

theorem batch_create_player_weapons_provenance (s : Store) (mid : String) (rn : Int)
    (sid : String) (hist : List (List (String × WeaponState))) (r : PlayerWeaponRow)
    (hr : r ∈ (batch_create_player_weapons s mid rn sid hist).player_weapons) :
    r ∈ s.player_weapons ∨ (account_row_exists s.accounts r.steam_account = true ∧
      r.steam_account = sid) := by
  have h := foldl_mem_provenance
    (batch_weapon_snapshot_step s.weapons s.match_rows s.accounts mid rn sid)
    (fun r _ => account_row_exists s.accounts r.steam_account = true ∧ r.steam_account = sid)
    (fun t b r hmem =>
      batch_weapon_snapshot_step_provenance s.weapons s.match_rows s.accounts mid rn sid
        t b r hmem)
    hist s.player_weapons r hr
  rcases h with h | ⟨_, _, hp⟩
  · exact Or.inl h
  · exact Or.inr hp

theorem update_player_match_stats_provenance (s : Store) (mid : String)
    (ps : PlayerState) (r : PlayerMatchStatRow)
    (hr : r ∈ (update_player_match_stats s mid ps).1.player_match_stats) :
    r ∈ s.player_match_stats ∨ (account_row_exists s.accounts r.steam_account = true ∧
      r.steam_account = ps.steam_id) := by
  unfold update_player_match_stats at hr
  split at hr
  · rename_i hcond
    unfold upsert_player_match_stat at hr
    dsimp only at hr
    split at hr
    · rcases List.mem_map.mp hr with ⟨x, hx, hfx⟩
      by_cases hk : x.steam_account = (mkPlayerMatchStatRow mid ps).steam_account ∧
          x.match_id = (mkPlayerMatchStatRow mid ps).match_id
      · rw [if_pos hk] at hfx
        rcases hfx.symm with rfl
        exact Or.inr ⟨hcond.1, rfl⟩
      · rw [if_neg hk] at hfx
        rcases hfx.symm with rfl
        exact Or.inl hx
    · rcases List.mem_append.mp hr with hmem | hmem
      · exact Or.inl hmem
      · rcases List.mem_singleton.mp hmem with rfl
        exact Or.inr ⟨hcond.1, rfl⟩
  · exact Or.inl hr

/-- Effects of one processor step on the store and the buffers, relative
to the pre-state `p` and pre-store `s`: accounts are never written; new
player-round-state and match-stat rows carry an FK-checked steam id
drawn from the buffered player states; new weapon rows carry the
owner's FK-checked steam id; the owner never changes; the history
buffers are only ever left alone or drained. -/
def proc_store_effects (p : ProcState) (s : Store) (q : ProcState) (t : Store) : Prop :=
  t.accounts = s.accounts ∧
  (∀ r ∈ t.player_round_states, r ∈ s.player_round_states ∨
    (account_row_exists s.accounts r.steam_account = true ∧
     ∃ ps ∈ p.player_states_history, r.steam_account = ps.steam_id)) ∧
  (∀ r ∈ t.player_weapons, r ∈ s.player_weapons ∨
    (account_row_exists s.accounts r.steam_account = true ∧
     r.steam_account = p.owner_steam_id)) ∧
  (∀ r ∈ t.player_match_stats, r ∈ s.player_match_stats ∨
    (account_row_exists s.accounts r.steam_account = true ∧
     ∃ ps ∈ p.player_states_history, r.steam_account = ps.steam_id)) ∧
  q.owner_steam_id = p.owner_steam_id ∧
  (q.player_states_history = p.player_states_history ∨ q.player_states_history = []) ∧
  (q.weapon_states_history = p.weapon_states_history ∨ q.weapon_states_history = [])

theorem proc_store_effects_rfl (p : ProcState) (s : Store) :
    proc_store_effects p s p s :=
  ⟨rfl, fun r hr => Or.inl hr, fun r hr => Or.inl hr, fun r hr => Or.inl hr,
   rfl, Or.inl rfl, Or.inl rfl⟩

/-- A step that leaves the store alone and only changes proc fields
outside the buffers. -/
theorem proc_store_effects_store_id (p : ProcState) (s : Store) (q : ProcState)
    (h1 : q.owner_steam_id = p.owner_steam_id)
    (h2 : q.player_states_history = p.player_states_history ∨ q.player_states_history = [])
    (h3 : q.weapon_states_history = p.weapon_states_history ∨ q.weapon_states_history = []) :
    proc_store_effects p s q s :=
  ⟨rfl, fun r hr => Or.inl hr, fun r hr => Or.inl hr, fun r hr => Or.inl hr, h1, h2, h3⟩

/-- A step whose store only touches matches/rounds tables. -/
theorem proc_store_effects_of_frames (p : ProcState) (s : Store) (q : ProcState) (t : Store)
    (ha : t.accounts = s.accounts)
    (hp : t.player_round_states = s.player_round_states)
    (hw : t.player_weapons = s.player_weapons)
    (hm : t.player_match_stats = s.player_match_stats)
    (h1 : q.owner_steam_id = p.owner_steam_id)
    (h2 : q.player_states_history = p.player_states_history ∨ q.player_states_history = [])
    (h3 : q.weapon_states_history = p.weapon_states_history ∨ q.weapon_states_history = []) :
    proc_store_effects p s q t :=
  ⟨ha, fun r hr => Or.inl (hp ▸ hr), fun r hr => Or.inl (hw ▸ hr),
   fun r hr => Or.inl (hm ▸ hr), h1, h2, h3⟩

theorem proc_store_effects_trans (p : ProcState) (s : Store) (q1 : ProcState)
    (t1 : Store) (q2 : ProcState) (t2 : Store)
    (h1 : proc_store_effects p s q1 t1) (h2 : proc_store_effects q1 t1 q2 t2) :
    proc_store_effects p s q2 t2 := by
  obtain ⟨ha1, hprs1, hpw1, hpms1, ho1, hh1, hw1⟩ := h1
  obtain ⟨ha2, hprs2, hpw2, hpms2, ho2, hh2, hw2⟩ := h2
  refine ⟨ha2.trans ha1, ?_, ?_, ?_, ho2.trans ho1, ?_, ?_⟩
  · intro r hr
    rcases hprs2 r hr with h | ⟨hfk, ps, hps, hsid⟩
    · exact hprs1 r h
    · rw [ha1] at hfk
      rcases hh1 with he | he
      · rw [he] at hps
        exact Or.inr ⟨hfk, ps, hps, hsid⟩
      · rw [he] at hps
        cases hps
  · intro r hr
    rcases hpw2 r hr with h | ⟨hfk, hsid⟩
    · exact hpw1 r h
    · rw [ha1] at hfk
      rw [ho1] at hsid
      exact Or.inr ⟨hfk, hsid⟩
  · intro r hr
    rcases hpms2 r hr with h | ⟨hfk, ps, hps, hsid⟩
    · exact hpms1 r h
    · rw [ha1] at hfk
      rcases hh1 with he | he
      · rw [he] at hps
        exact Or.inr ⟨hfk, ps, hps, hsid⟩
      · rw [he] at hps
        cases hps
  · rcases hh2 with he | he
    · rw [he]; exact hh1
    · exact Or.inr he
  · rcases hw2 with he | he
    · rw [he]; exact hw1
    · exact Or.inr he

/-- Rebase the pre-state of an effects fact to a processor with the
same owner and buffers. -/
theorem proc_store_effects_congr (p p' : ProcState) (s : Store) (q : ProcState) (t : Store)
    (ho : p'.owner_steam_id = p.owner_steam_id)
    (hh : p'.player_states_history = p.player_states_history)
    (hw : p'.weapon_states_history = p.weapon_states_history)
    (h : proc_store_effects p' s q t) : proc_store_effects p s q t := by
  obtain ⟨ha1, hprs1, hpw1, hpms1, ho1, hh1, hw1⟩ := h
  refine ⟨ha1, ?_, ?_, ?_, ho1.trans ho, ?_, ?_⟩
  · intro r hr
    rcases hprs1 r hr with h | ⟨hfk, ps, hps, hsid⟩
    · exact Or.inl h
    · rw [hh] at hps
      exact Or.inr ⟨hfk, ps, hps, hsid⟩
  · intro r hr
    rcases hpw1 r hr with h | ⟨hfk, hsid⟩
    · exact Or.inl h
    · rw [ho] at hsid
      exact Or.inr ⟨hfk, hsid⟩
  · intro r hr
    rcases hpms1 r hr with h | ⟨hfk, ps, hps, hsid⟩
    · exact Or.inl h
    · rw [hh] at hps
      exact Or.inr ⟨hfk, ps, hps, hsid⟩
  · rw [← hh]; exact hh1
  · rw [← hw]; exact hw1

/-- Store effects of the player-state / weapon batch pipeline run from
any store `s0` that agrees with `s` on the relevant tables (no final
stats upsert). -/
theorem batch_pipeline_none (s s0 : Store) (mid : String) (rn : Int) (owner : String)
    (psl : List PlayerState) (hist : List (List (String × WeaponState)))
    (ha : s0.accounts = s.accounts) (hp : s0.player_round_states = s.player_round_states)
    (hw : s0.player_weapons = s.player_weapons)
    (hm : s0.player_match_stats = s.player_match_stats) :
    (batch_create_player_weapons (batch_create_player_states s0 mid rn psl)
        mid rn owner hist).accounts = s.accounts ∧
    (∀ r ∈ (batch_create_player_weapons (batch_create_player_states s0 mid rn psl)
        mid rn owner hist).player_round_states, r ∈ s.player_round_states ∨
      (account_row_exists s.accounts r.steam_account = true ∧
        ∃ ps ∈ psl, r.steam_account = ps.steam_id)) ∧
    (∀ r ∈ (batch_create_player_weapons (batch_create_player_states s0 mid rn psl)
        mid rn owner hist).player_weapons, r ∈ s.player_weapons ∨
      (account_row_exists s.accounts r.steam_account = true ∧ r.steam_account = owner)) ∧
    (∀ r ∈ (batch_create_player_weapons (batch_create_player_states s0 mid rn psl)
        mid rn owner hist).player_match_stats, r ∈ s.player_match_stats ∨
      (account_row_exists s.accounts r.steam_account = true ∧
        ∃ ps ∈ psl, r.steam_account = ps.steam_id)) := by
  refine ⟨ha, ?_, ?_, ?_⟩
  · intro r hr
    have hr2 : r ∈ (batch_create_player_states s0 mid rn psl).player_round_states := hr
    rcases batch_create_player_states_provenance s0 mid rn psl r hr2 with h | ⟨hfk, hps⟩
    · have h' : r ∈ s0.player_round_states := h
      rw [hp] at h'
      exact Or.inl h'
    · have hfk' : account_row_exists s0.accounts r.steam_account = true := hfk
      rw [ha] at hfk'
      exact Or.inr ⟨hfk', hps⟩
  · intro r hr
    rcases batch_create_player_weapons_provenance (batch_create_player_states s0 mid rn psl)
        mid rn owner hist r hr with h | ⟨hfk, hsid⟩
    · have h' : r ∈ s0.player_weapons := h
      rw [hw] at h'
      exact Or.inl h'
    · have hfk' : account_row_exists s0.accounts r.steam_account = true := hfk
      rw [ha] at hfk'
      exact Or.inr ⟨hfk', hsid⟩
  · intro r hr
    have hr' : r ∈ s0.player_match_stats := hr
    rw [hm] at hr'
    exact Or.inl hr'

/-- As `batch_pipeline_none`, with the final stats upsert for a state
drawn from the buffered list. -/
theorem batch_pipeline_some (s s0 : Store) (mid : String) (rn : Int) (owner : String)
    (psl : List PlayerState) (hist : List (List (String × WeaponState)))
    (ha : s0.accounts = s.accounts) (hp : s0.player_round_states = s.player_round_states)
    (hw : s0.player_weapons = s.player_weapons)
    (hm : s0.player_match_stats = s.player_match_stats)
    (x : PlayerState) (hx : x ∈ psl) :
    (update_player_match_stats (batch_create_player_weapons
        (batch_create_player_states s0 mid rn psl) mid rn owner hist) mid x).1.accounts
      = s.accounts ∧
    (∀ r ∈ (update_player_match_stats (batch_create_player_weapons
        (batch_create_player_states s0 mid rn psl) mid rn owner hist) mid x).1.player_round_states,
      r ∈ s.player_round_states ∨
      (account_row_exists s.accounts r.steam_account = true ∧
        ∃ ps ∈ psl, r.steam_account = ps.steam_id)) ∧
    (∀ r ∈ (update_player_match_stats (batch_create_player_weapons
        (batch_create_player_states s0 mid rn psl) mid rn owner hist) mid x).1.player_weapons,
      r ∈ s.player_weapons ∨
      (account_row_exists s.accounts r.steam_account = true ∧ r.steam_account = owner)) ∧
    (∀ r ∈ (update_player_match_stats (batch_create_player_weapons
        (batch_create_player_states s0 mid rn psl) mid rn owner hist) mid x).1.player_match_stats,
      r ∈ s.player_match_stats ∨
      (account_row_exists s.accounts r.steam_account = true ∧
        ∃ ps ∈ psl, r.steam_account = ps.steam_id)) := by
  have base := batch_pipeline_none s s0 mid rn owner psl hist ha hp hw hm
  refine ⟨?_, ?_, ?_, ?_⟩
  · rw [upms_fst_accounts]
    exact base.1
  · intro r hr
    rw [upms_fst_player_round_states] at hr
    exact base.2.1 r hr
  · intro r hr
    rw [upms_fst_player_weapons] at hr
    exact base.2.2.1 r hr
  · intro r hr
    rcases update_player_match_stats_provenance _ mid x r hr with h | ⟨hfk, hsid⟩
    · exact base.2.2.2 r h
    · have hfk' : account_row_exists s0.accounts r.steam_account = true := hfk
      rw [ha] at hfk'
      exact Or.inr ⟨hfk', x, hx, hsid⟩

theorem persist_round_data_effects (p : ProcState) (s : Store) (rn : Int) :
    proc_store_effects p s (persist_round_data p s rn).proc
      (persist_round_data p s rn).store := by
  unfold persist_round_data
  split
  · exact proc_store_effects_rfl p s
  · split
    · exact proc_store_effects_rfl p s
    · split
      · exact proc_store_effects_rfl p s
      · dsimp only
        cases hl : p.player_states_history.getLast? with
        | none =>
            dsimp only
            split
            · have hf := create_round_frame s p.match_id rn
                (match p.round_state with | some r => r.phase | none => "over")
                (get_round_winner p.extractor rn) (get_round_win_condition p.extractor rn) none
              have base := batch_pipeline_none s _ p.match_id rn p.owner_steam_id
                p.player_states_history p.weapon_states_history hf.2.2.2 hf.1 hf.2.1 hf.2.2.1
              exact ⟨base.1, base.2.1, base.2.2.1, base.2.2.2, rfl, Or.inr rfl, Or.inr rfl⟩
            · have base := batch_pipeline_none s s p.match_id rn p.owner_steam_id
                p.player_states_history p.weapon_states_history rfl rfl rfl rfl
              exact ⟨base.1, base.2.1, base.2.2.1, base.2.2.2, rfl, Or.inr rfl, Or.inr rfl⟩
        | some lastPs =>
            dsimp only
            have hmem : lastPs ∈ p.player_states_history := mem_of_getLast?_eq _ _ hl
            split
            · have hf := create_round_frame s p.match_id rn
                (match p.round_state with | some r => r.phase | none => "over")
                (get_round_winner p.extractor rn) (get_round_win_condition p.extractor rn) none
              have base := batch_pipeline_some s _ p.match_id rn p.owner_steam_id
                p.player_states_history p.weapon_states_history hf.2.2.2 hf.1 hf.2.1 hf.2.2.1
                lastPs hmem
              exact ⟨base.1, base.2.1, base.2.2.1, base.2.2.2, rfl, Or.inr rfl, Or.inr rfl⟩
            · have base := batch_pipeline_some s s p.match_id rn p.owner_steam_id
                p.player_states_history p.weapon_states_history rfl rfl rfl rfl lastPs hmem
              exact ⟨base.1, base.2.1, base.2.2.1, base.2.2.2, rfl, Or.inr rfl, Or.inr rfl⟩

theorem complete_round_effects (p : ProcState) (s : Store) (rn : Int) (now : Int) :
    proc_store_effects p s (complete_round p s rn now).proc
      (complete_round p s rn now).store := by
  unfold complete_round
  dsimp only
  split
  · split
    · have hf := update_round_winner_frame s p.match_id rn
        ((get_round_winner p.extractor rn).getD "") (get_round_win_condition p.extractor rn)
      exact proc_store_effects_trans p s p _ _ _
        (proc_store_effects_of_frames p s p _ hf.2.2.2 hf.1 hf.2.1 hf.2.2.1 rfl
          (Or.inl rfl) (Or.inl rfl))
        (persist_round_data_effects p _ rn)
    · have hf := create_round_frame s p.match_id rn "over"
        (get_round_winner p.extractor rn) (get_round_win_condition p.extractor rn)
        (some (match p.match_state with | some m => m.timestamp | none => now))
      exact proc_store_effects_trans p s p _ _ _
        (proc_store_effects_of_frames p s p _ hf.2.2.2 hf.1 hf.2.1 hf.2.2.1 rfl
          (Or.inl rfl) (Or.inl rfl))
        (persist_round_data_effects p _ rn)
  · exact persist_round_data_effects p s rn

theorem ensure_round_frame (p : ProcState) (s : Store) (rn : Int) (phase : String)
    (winning cond : Option String) (ts : Option Int) (now : Int) :
    (ensure_round p s rn phase winning cond ts now).1.player_round_states
        = s.player_round_states ∧
    (ensure_round p s rn phase winning cond ts now).1.player_weapons = s.player_weapons ∧
    (ensure_round p s rn phase winning cond ts now).1.player_match_stats
        = s.player_match_stats ∧
    (ensure_round p s rn phase winning cond ts now).1.accounts = s.accounts := by
  unfold ensure_round
  split
  · exact ⟨rfl, rfl, rfl, rfl⟩
  · exact create_round_frame s p.match_id rn phase winning cond _

theorem round_transition_tail_effects (st1 : ProcStep) (new_round : Int)
    (nrs : RoundState) (now : Int) :
    proc_store_effects st1.proc st1.store (round_transition_tail st1 new_round nrs now).proc
      (round_transition_tail st1 new_round nrs now).store := by
  unfold round_transition_tail
  split
  · exact proc_store_effects_rfl _ _
  · split
    · split
      · dsimp only
        have hf := ensure_round_frame st1.proc st1.store new_round nrs.phase none none
          (some nrs.timestamp) now
        exact proc_store_effects_of_frames _ _ _ _ hf.2.2.2 hf.1 hf.2.1 hf.2.2.1 rfl
          (Or.inl rfl) (Or.inl rfl)
      · exact proc_store_effects_store_id _ _ _ rfl (Or.inl rfl) (Or.inl rfl)
    · exact proc_store_effects_rfl _ _

theorem handle_round_transition_effects (p : ProcState) (s : Store)
    (old_round new_round : Int) (nrs : RoundState) (now : Int) :
    proc_store_effects p s (handle_round_transition p s old_round new_round nrs now).proc
      (handle_round_transition p s old_round new_round nrs now).store := by
  unfold handle_round_transition
  have hhead : proc_store_effects p s
      ((if old_round > 0 then
          if old_round ∉ p.rounds_persisted then
            complete_round { p with rounds_persisted := p.rounds_persisted ++ [old_round] }
              s old_round now
          else ⟨p, s, []⟩
        else ⟨p, s, []⟩) : ProcStep).proc
      ((if old_round > 0 then
          if old_round ∉ p.rounds_persisted then
            complete_round { p with rounds_persisted := p.rounds_persisted ++ [old_round] }
              s old_round now
          else ⟨p, s, []⟩
        else ⟨p, s, []⟩) : ProcStep).store := by
    split_ifs
    · exact proc_store_effects_rfl p s
    · exact proc_store_effects_congr p _ s _ _ rfl rfl rfl
        (complete_round_effects _ s old_round now)
    · exact proc_store_effects_rfl p s
  exact proc_store_effects_trans p s _ _ _ _ hhead
    (round_transition_tail_effects _ new_round nrs now)

theorem completion_fold_effects (l : List Int) :
    ∀ acc : ProcStep,
      proc_store_effects acc.proc acc.store (l.foldl completion_round_step acc).proc
        (l.foldl completion_round_step acc).store := by
  induction l with
  | nil => intro acc; exact proc_store_effects_rfl _ _
  | cons rn l ih =>
      intro acc
      rw [List.foldl_cons]
      refine proc_store_effects_trans _ _ _ _ _ _ ?_ (ih (completion_round_step acc rn))
      unfold completion_round_step
      split
      · dsimp only
        exact proc_store_effects_congr _ _ _ _ _ rfl rfl rfl
          (persist_round_data_effects _ acc.store rn)
      · exact proc_store_effects_rfl _ _

theorem completion_tail_effects (p1 : ProcState) (s : Store) (l : List Int) (mid : String)
    (ct t tot ts : Int) :
    proc_store_effects p1 s (l.foldl completion_round_step ⟨p1, s, []⟩).proc
      (complete_match (l.foldl completion_round_step ⟨p1, s, []⟩).store mid ct t tot ts).1 := by
  have h1 := completion_fold_effects l ⟨p1, s, []⟩
  have hf := complete_match_frame (l.foldl completion_round_step ⟨p1, s, []⟩).store mid ct t tot ts
  exact proc_store_effects_trans p1 s _ _ _ _ h1
    (proc_store_effects_of_frames _ _ _ _ hf.2.2.2 hf.1 hf.2.1 hf.2.2.1 rfl
      (Or.inl rfl) (Or.inl rfl))

theorem handle_match_completion_effects (p : ProcState) (s : Store) (now : Int) :
    proc_store_effects p s (handle_match_completion p s now).proc
      (handle_match_completion p s now).store := by
  unfold handle_match_completion
  split
  · exact proc_store_effects_rfl p s
  · dsimp only
    split
    · exact proc_store_effects_store_id p s _ rfl (Or.inl rfl) (Or.inl rfl)
    · rename_i mst heq
      exact proc_store_effects_congr p _ s _ _ rfl rfl rfl
        (completion_tail_effects _ s _ _ _ _ _ _)

theorem update_round_winner_task_frame (p : ProcState) (s : Store) (rn : Int)
    (win : String) (cond : Option String) (now : Int) :
    (update_round_winner_task p s rn win cond now).1.player_round_states
        = s.player_round_states ∧
    (update_round_winner_task p s rn win cond now).1.player_weapons = s.player_weapons ∧
    (update_round_winner_task p s rn win cond now).1.player_match_stats
        = s.player_match_stats ∧
    (update_round_winner_task p s rn win cond now).1.accounts = s.accounts := by
  unfold update_round_winner_task
  split
  · exact update_round_winner_frame s p.match_id rn win cond
  · exact create_round_frame s p.match_id rn "over" (some win) cond _

theorem task_step_effects (p q : ProcState) (s : Store) (rn : Int) (win : String)
    (cond : Option String) (now : Int)
    (h1 : q.owner_steam_id = p.owner_steam_id)
    (h2 : q.player_states_history = p.player_states_history)
    (h3 : q.weapon_states_history = p.weapon_states_history) :
    proc_store_effects p s q (update_round_winner_task q s rn win cond now).1 := by
  have hf := update_round_winner_task_frame q s rn win cond now
  exact proc_store_effects_of_frames p s q _ hf.2.2.2 hf.1 hf.2.1 hf.2.2.1 h1
    (Or.inl h2) (Or.inl h3)

theorem set_match_state_effects (p : ProcState) (s : Store) (ms : MatchState) (now : Int) :
    proc_store_effects p s (set_match_state p s ms now).proc
      (set_match_state p s ms now).store := by
  unfold set_match_state
  dsimp only
  split
  · split
    · exact proc_store_effects_congr _ _ _ _ _ rfl rfl rfl
        (handle_match_completion_effects _ s now)
    · exact proc_store_effects_store_id p s _ rfl (Or.inl rfl) (Or.inl rfl)
  · exact proc_store_effects_store_id p s _ rfl (Or.inl rfl) (Or.inl rfl)

theorem set_round_state_effects (p : ProcState) (s : Store) (rs : RoundState) (now : Int) :
    proc_store_effects p s (set_round_state p s rs now).proc
      (set_round_state p s rs now).store := by
  unfold set_round_state
  dsimp only
  split
  · split
    · split
      · split
        · dsimp only
          exact task_step_effects p _ s rs.round_number _ rs.win_condition now rfl rfl rfl
        · exact proc_store_effects_store_id p s _ rfl (Or.inl rfl) (Or.inl rfl)
      · exact proc_store_effects_store_id p s _ rfl (Or.inl rfl) (Or.inl rfl)
    · exact proc_store_effects_store_id p s _ rfl (Or.inl rfl) (Or.inl rfl)
  · exact proc_store_effects_store_id p s _ rfl (Or.inl rfl) (Or.inl rfl)

theorem handle_match_data_effects (p : ProcState) (s : Store) (msOpt : Option MatchState)
    (now : Int) :
    proc_store_effects p s (handle_match_data p s msOpt now).proc
      (handle_match_data p s msOpt now).store := by
  unfold handle_match_data
  split
  · exact proc_store_effects_rfl p s
  · rename_i ms
    dsimp only
    split
    · split
      · have h1 := proc_store_effects_store_id p s
          { p with match_persisted := true } rfl (Or.inl rfl) (Or.inl rfl)
        exact proc_store_effects_trans p s _ s _ _ h1 (set_match_state_effects _ s ms now)
      · split
        · rename_i s' v heq
          have hf := create_match_frame s ms p.match_id
          rw [heq] at hf
          have h1 := proc_store_effects_of_frames p s
            { p with match_persisted := true } s' hf.2.2.2 hf.1 hf.2.1 hf.2.2.1 rfl
            (Or.inl rfl) (Or.inl rfl)
          exact proc_store_effects_trans p s _ s' _ _ h1 (set_match_state_effects _ s' ms now)
        · rename_i s' heq
          have hf := create_match_frame s ms p.match_id
          rw [heq] at hf
          have h1 := proc_store_effects_of_frames p s p s' hf.2.2.2 hf.1 hf.2.1 hf.2.2.1 rfl
            (Or.inl rfl) (Or.inl rfl)
          exact proc_store_effects_trans p s p s' _ _ h1 (set_match_state_effects p s' ms now)
    · split
      · have hf := update_match_frame s p.match_id ms
        have h1 := proc_store_effects_of_frames p s p
          (update_match s p.match_id ms).1 hf.2.2.2 hf.1 hf.2.1 hf.2.2.1 rfl
          (Or.inl rfl) (Or.inl rfl)
        exact proc_store_effects_trans p s p _ _ _ h1
          (set_match_state_effects p _ ms now)
      · exact proc_store_effects_trans p s p s _ _ (proc_store_effects_rfl p s)
          (set_match_state_effects p s ms now)

theorem handle_round_data_effects (p : ProcState) (s : Store) (rsOpt : Option RoundState)
    (now : Int) :
    proc_store_effects p s (handle_round_data p s rsOpt now).proc
      (handle_round_data p s rsOpt now).store := by
  unfold handle_round_data
  split
  · exact proc_store_effects_rfl p s
  · rename_i rs
    dsimp only
    by_cases hc : p.match_state.isSome ∧ p.current_round ≠ rs.round_number
    · rw [if_pos hc]
      refine proc_store_effects_trans p s _ _ _ _
        (handle_round_transition_effects p s p.current_round rs.round_number rs now) ?_
      generalize handle_round_transition p s p.current_round rs.round_number rs now = st1
      obtain ⟨q, t, c⟩ := st1
      dsimp only
      split
      · split
        · exact proc_store_effects_congr q _ t _ _ rfl rfl rfl
            (set_round_state_effects _ t rs now)
        · exact set_round_state_effects q t rs now
      · exact set_round_state_effects q t rs now
    · rw [if_neg hc]
      dsimp only
      split
      · split
        · exact proc_store_effects_congr p _ s _ _ rfl rfl rfl
            (set_round_state_effects _ s rs now)
        · exact set_round_state_effects p s rs now
      · exact set_round_state_effects p s rs now

theorem handle_payload_core_effects_spectator (p1 : ProcState) (s : Store)
    (exr2 : ExtractResult) (now : Int) :
    proc_store_effects p1 s (handle_payload_core p1 s exr2 false now).proc
      (handle_payload_core p1 s exr2 false now).store := by
  unfold handle_payload_core
  dsimp only
  rw [if_neg (by simp)]
  exact proc_store_effects_trans p1 s _ _ _ _
    (handle_match_data_effects p1 s exr2.match_state now)
    (handle_round_data_effects _ _ exr2.round_state now)

theorem handle_payload_effects_spectator (p : ProcState) (s : Store) (payload : Payload)
    (now : Int) :
    proc_store_effects p s (handle_payload p s payload false now).proc
      (handle_payload p s payload false now).store := by
  unfold handle_payload
  dsimp only
  split
  · exact proc_store_effects_store_id p s _ rfl (Or.inl rfl) (Or.inl rfl)
  · split
    · exact proc_store_effects_store_id p s _ rfl (Or.inl rfl) (Or.inl rfl)
    · exact proc_store_effects_congr p _ s _ _ rfl rfl rfl
        (handle_payload_core_effects_spectator _ s _ now)

/-! ## Foreign-key provenance across a whole routed trace (claim C3)

`fk_extension s t` says the ingest pipeline took the store from `s` to
`t` without touching the accounts table, and that every player-keyed
row of `t` either predates `s` or references an account row that
already existed in `s`. -/

def fk_extension (s t : Store) : Prop :=
  t.accounts = s.accounts ∧
  (∀ r ∈ t.player_round_states, r ∈ s.player_round_states ∨
    account_row_exists s.accounts r.steam_account = true) ∧
  (∀ r ∈ t.player_weapons, r ∈ s.player_weapons ∨
    account_row_exists s.accounts r.steam_account = true) ∧
  (∀ r ∈ t.player_match_stats, r ∈ s.player_match_stats ∨
    account_row_exists s.accounts r.steam_account = true)

theorem fk_extension_rfl (s : Store) : fk_extension s s :=
  ⟨rfl, fun r hr => Or.inl hr, fun r hr => Or.inl hr, fun r hr => Or.inl hr⟩

theorem fk_extension_trans (s t u : Store) (h1 : fk_extension s t)
    (h2 : fk_extension t u) : fk_extension s u := by
  obtain ⟨ha1, hp1, hw1, hm1⟩ := h1
  obtain ⟨ha2, hp2, hw2, hm2⟩ := h2
  refine ⟨ha2.trans ha1, ?_, ?_, ?_⟩
  · intro r hr
    rcases hp2 r hr with h | h
    · exact hp1 r h
    · rw [ha1] at h
      exact Or.inr h
  · intro r hr
    rcases hw2 r hr with h | h
    · exact hw1 r h
    · rw [ha1] at h
      exact Or.inr h
  · intro r hr
    rcases hm2 r hr with h | h
    · exact hm1 r h
    · rw [ha1] at h
      exact Or.inr h

theorem fk_extension_of_effects (p : ProcState) (s : Store) (q : ProcState) (t : Store)
    (h : proc_store_effects p s q t) : fk_extension s t := by
  obtain ⟨ha, hp, hw, hm, _, _, _⟩ := h
  refine ⟨ha, ?_, ?_, ?_⟩
  · intro r hr
    rcases hp r hr with h | h
    · exact Or.inl h
    · exact Or.inr h.1
  · intro r hr
    rcases hw r hr with h | h
    · exact Or.inl h
    · exact Or.inr h.1
  · intro r hr
    rcases hm r hr with h | h
    · exact Or.inl h
    · exact Or.inr h.1

theorem handle_player_data_fk (p : ProcState) (s : Store) (psOpt : Option PlayerState) :
    fk_extension s (handle_player_data p s psOpt).store := by
  unfold handle_player_data
  split
  · exact fk_extension_rfl s
  · rename_i ps
    dsimp only
    split
    · refine ⟨upms_fst_accounts s _ ps, ?_, ?_, ?_⟩
      · rw [upms_fst_player_round_states]
        intro r hr
        exact Or.inl hr
      · rw [upms_fst_player_weapons]
        intro r hr
        exact Or.inl hr
      · intro r hr
        rcases update_player_match_stats_provenance s _ ps r hr with h | h
        · exact Or.inl h
        · exact Or.inr h.1
    · exact fk_extension_rfl s

theorem handle_payload_core_fk (p1 : ProcState) (s : Store) (exr2 : ExtractResult)
    (b : Bool) (now : Int) :
    fk_extension s (handle_payload_core p1 s exr2 b now).store := by
  unfold handle_payload_core
  dsimp only
  split
  · exact fk_extension_trans s _ _
      (fk_extension_trans s _ _
        (fk_extension_of_effects p1 s _ _ (handle_match_data_effects p1 s exr2.match_state now))
        (fk_extension_of_effects _ _ _ _ (handle_round_data_effects _ _ exr2.round_state now)))
      (handle_player_data_fk _ _ exr2.player_state)
  · exact fk_extension_trans s _ _
      (fk_extension_of_effects p1 s _ _ (handle_match_data_effects p1 s exr2.match_state now))
      (fk_extension_of_effects _ _ _ _ (handle_round_data_effects _ _ exr2.round_state now))

theorem handle_payload_fk (p : ProcState) (s : Store) (payload : Payload) (b : Bool)
    (now : Int) :
    fk_extension s (handle_payload p s payload b now).store := by
  unfold handle_payload
  dsimp only
  split
  · exact fk_extension_rfl s
  · split
    · exact fk_extension_rfl s
    · exact handle_payload_core_fk _ s _ b now

theorem route_payload_fk (m : ManagerState) (s : Store) (payload : Payload)
    (uuidStr : String) (now : Int) :
    fk_extension s (route_payload m s payload uuidStr now).2.2 := by
  unfold route_payload
  split
  · exact fk_extension_rfl s
  · dsimp only
    split
    · split
      · exact handle_payload_fk _ s payload _ now
      · exact handle_payload_fk _ s payload _ now
    · exact fk_extension_rfl s

theorem route_trace_fk (trace : List (Payload × String × Int)) :
    ∀ (m : ManagerState) (s : Store), fk_extension s (route_trace m s trace).2 := by
  induction trace with
  | nil => intro m s; exact fk_extension_rfl s
  | cons e tr ih =>
      intro m s
      have hstep : route_trace m s (e :: tr) =
          route_trace (route_payload m s e.1 e.2.1 e.2.2).2.1
            (route_payload m s e.1 e.2.1 e.2.2).2.2 tr := rfl
      rw [hstep]
      exact fk_extension_trans s _ _ (route_payload_fk m s e.1 e.2.1 e.2.2) (ih _ _)

/-! ## Claims C3, C7 and C8: concrete scenario data -/

/-- The empty manager. -/
def emptyManager : ManagerState := { match_processors := [] }

/-- A live-phase map section. -/
def c3MapData : MapData :=
  { name := some "de_dust2", mode := some "competitive", phase := some "live",
    round := some 0, team_ct_score := some 0, team_t_score := some 0 }

/-- A live snapshot from the owner (first round, wire round 0). -/
def c3Payload : Payload := { c6Payload with map := some c3MapData }

/-- A store whose only account belongs to the owner. -/
def c3Store : Store := { emptyStore with accounts := [("76561198000000001", "tok")] }

/-- A spectator snapshot: the provider is the owner but the player
section shows a different steam id; wire round 1 triggers a round
transition. -/
def c7P2 : Payload :=
  { map := some { name := some "de_dust2", mode := some "competitive",
                  phase := some "live", round := some 1,
                  team_ct_score := some 1, team_t_score := some 0 }
    provider := some { steamid := some "76561198000000001", timestamp := some 200 }
    round := some { phase := some "freezetime", win_team := none, bomb := none }
    player := some { steamid := some "76561198000000002", name := some "B",
                     team := some "T", activity := some "playing",
                     state := some { health := some 100, armor := some 0,
                                     money := some 800, equip_value := some 200,
                                     round_kills := some 0 },
                     match_stats := some { kills := some 0, deaths := some 0,
                                           assists := some 0, mvps := some 0,
                                           score := some 0 },
                     weapons := some [] } }

/-- A two-snapshot trace: the owner's live snapshot, then the
spectator snapshot (which persists the owner's buffered round data). -/
def c3Trace : List (Payload × String × Int) := [(c3Payload, "u1", 100), (c7P2, "u2", 200)]

/-- C3: for every routed trace, a steam id with no accounts row at the
start (and no pre-existing rows) never acquires a `PlayerRoundState`
or `PlayerWeapon` row: the ingest path never writes the accounts table,
and every inserted player-keyed row passed the foreign-key check
against an existing account. -/
theorem c3_unknown_account_never_gets_rows (m : ManagerState) (s : Store)
    (trace : List (Payload × String × Int)) (sid : String)
    (hacc : account_row_exists s.accounts sid = false)
    (hprs : ∀ r ∈ s.player_round_states, r.steam_account ≠ sid)
    (hpw : ∀ r ∈ s.player_weapons, r.steam_account ≠ sid) :
    (route_trace m s trace).2.accounts = s.accounts ∧
    (∀ r ∈ (route_trace m s trace).2.player_round_states, r.steam_account ≠ sid) ∧
    (∀ r ∈ (route_trace m s trace).2.player_weapons, r.steam_account ≠ sid) := by
  have hfk := route_trace_fk trace m s
  refine ⟨hfk.1, ?_, ?_⟩
  · intro r hr heq
    rcases hfk.2.1 r hr with h | h
    · exact hprs r h heq
    · rw [heq, hacc] at h
      exact Bool.false_ne_true h
  · intro r hr heq
    rcases hfk.2.2.1 r hr with h | h
    · exact hpw r h heq
    · rw [heq, hacc] at h
      exact Bool.false_ne_true h

/-- Witness for C3: a two-snapshot trace that really persists rows for
the known owner account writes nothing for the absent steam id `X`. -/
theorem c3_unknown_account_never_gets_rows_witness :
    account_row_exists c3Store.accounts "X" = false ∧
    ((route_trace emptyManager c3Store c3Trace).2.accounts = c3Store.accounts ∧
     (∀ r ∈ (route_trace emptyManager c3Store c3Trace).2.player_round_states,
        r.steam_account ≠ "X") ∧
     (∀ r ∈ (route_trace emptyManager c3Store c3Trace).2.player_weapons,
        r.steam_account ≠ "X")) :=
  ⟨by decide,
   c3_unknown_account_never_gets_rows emptyManager c3Store c3Trace "X" (by decide)
     (by simp [c3Store, emptyStore]) (by simp [c3Store, emptyStore])⟩

/-! ## Claim C7: spectator snapshots and the player/weapon tables -/

/-- A fresh processor for the owner's match. -/
def c7Proc0 : ProcState :=
  initProcessor "de_dust2_competitive_76561198000000001"
    "de_dust2_competitive_76561198000000001_u" "76561198000000001" 100

/-- The processor step on the owner's live snapshot: it persists the
match and buffers the owner's player state. -/
def c7Step1 : ProcStep := handle_payload c7Proc0 emptyStore c3Payload true 100

/-- C7 counterexample: the claim's "history buffers are unchanged by a
spectator snapshot" is false.  After the owner's live snapshot the
player-state buffer is non-empty; the spectator snapshot `c7P2`
(provider steam id differs from player steam id) triggers a round
transition whose persistence step drains the buffer to empty. -/
theorem c7_counterexample :
    (c7P2.provider.bind (fun pr => pr.steamid)
      ≠ c7P2.player.bind (fun pd => pd.steamid)) ∧
    c7Step1.proc.player_states_history ≠ [] ∧
    (handle_payload c7Step1.proc c7Step1.store c7P2 false 200).proc.player_states_history
      ≠ c7Step1.proc.player_states_history ∧
    (handle_payload c7Step1.proc c7Step1.store c7P2 false 200).proc.player_states_history
      = [] := by decide

/-- C7 (amended): a spectator snapshot (`is_owner_playing = false`)
writes no `PlayerRoundState`, `PlayerWeapon` or `PlayerMatchStat` row
for the spectated player, provided the spectated id is not the owner
and the player-state buffer only holds owner states (as `handle_payload`
maintains, since only owner snapshots are buffered); and the snapshot
never appends to the history buffers — each is left unchanged or
drained to empty by round persistence. -/
theorem c7_spectator_writes_no_player_rows (p : ProcState) (s : Store) (payload : Payload)
    (now : Int) (sid : String)
    (hbuf : ∀ ps ∈ p.player_states_history, ps.steam_id = p.owner_steam_id)
    (hsid : sid ≠ p.owner_steam_id)
    (hprs : ∀ r ∈ s.player_round_states, r.steam_account ≠ sid)
    (hpw : ∀ r ∈ s.player_weapons, r.steam_account ≠ sid)
    (hpms : ∀ r ∈ s.player_match_stats, r.steam_account ≠ sid) :
    (∀ r ∈ (handle_payload p s payload false now).store.player_round_states,
        r.steam_account ≠ sid) ∧
    (∀ r ∈ (handle_payload p s payload false now).store.player_weapons,
        r.steam_account ≠ sid) ∧
    (∀ r ∈ (handle_payload p s payload false now).store.player_match_stats,
        r.steam_account ≠ sid) ∧
    ((handle_payload p s payload false now).proc.player_states_history
        = p.player_states_history ∨
     (handle_payload p s payload false now).proc.player_states_history = []) ∧
    ((handle_payload p s payload false now).proc.weapon_states_history
        = p.weapon_states_history ∨
     (handle_payload p s payload false now).proc.weapon_states_history = []) := by
  have he := handle_payload_effects_spectator p s payload now
  refine ⟨?_, ?_, ?_, he.2.2.2.2.2.1, he.2.2.2.2.2.2⟩
  · intro r hr heq
    rcases he.2.1 r hr with h | ⟨hfk, ps, hps, hpsid⟩
    · exact hprs r h heq
    · exact hsid (by rw [← heq, hpsid, hbuf ps hps])
  · intro r hr heq
    rcases he.2.2.1 r hr with h | ⟨hfk, hpsid⟩
    · exact hpw r h heq
    · exact hsid (by rw [← heq, hpsid])
  · intro r hr heq
    rcases he.2.2.2.1 r hr with h | ⟨hfk, ps, hps, hpsid⟩
    · exact hpms r h heq
    · exact hsid (by rw [← heq, hpsid, hbuf ps hps])

/-- Witness for the amended C7 at the concrete spectator snapshot:
no row for the spectated player `76561198000000002` appears. -/
theorem c7_spectator_writes_no_player_rows_witness :
    (∀ ps ∈ c7Step1.proc.player_states_history,
        ps.steam_id = c7Step1.proc.owner_steam_id) ∧
    ((∀ r ∈ (handle_payload c7Step1.proc c7Step1.store c7P2 false 200).store.player_round_states,
        r.steam_account ≠ "76561198000000002") ∧
     (∀ r ∈ (handle_payload c7Step1.proc c7Step1.store c7P2 false 200).store.player_weapons,
        r.steam_account ≠ "76561198000000002") ∧
     (∀ r ∈ (handle_payload c7Step1.proc c7Step1.store c7P2 false 200).store.player_match_stats,
        r.steam_account ≠ "76561198000000002") ∧
     ((handle_payload c7Step1.proc c7Step1.store c7P2 false 200).proc.player_states_history
        = c7Step1.proc.player_states_history ∨
      (handle_payload c7Step1.proc c7Step1.store c7P2 false 200).proc.player_states_history
        = []) ∧
     ((handle_payload c7Step1.proc c7Step1.store c7P2 false 200).proc.weapon_states_history
        = c7Step1.proc.weapon_states_history ∨
      (handle_payload c7Step1.proc c7Step1.store c7P2 false 200).proc.weapon_states_history
        = [])) :=
  ⟨by decide,
   c7_spectator_writes_no_player_rows c7Step1.proc c7Step1.store c7P2 200
     "76561198000000002" (by decide) (by decide) (by decide) (by decide) (by decide)⟩

/-! ## Claim C8: menu payloads and routing -/

/-- A payload whose player activity is `menu` but which still carries
full map and provider sections (as the client sends while a match is
loading in the background). -/
def c8MenuPayload : Payload :=
  { map := some c3MapData
    provider := some { steamid := some "76561198000000001", timestamp := some 100 }
    round := some { phase := some "freezetime", win_team := none, bomb := none }
    player := some { steamid := some "76561198000000001", name := some "A",
                     team := some "CT", activity := some "menu",
                     state := none, match_stats := none, weapons := some [] } }

/-- C8 counterexample: a menu payload that still has map and provider
sections is routed normally — `_handle_payload` checks
`_is_menu_payload` only after match-id extraction has failed — so
routing returns true and a `Match` row is created from it. -/
theorem c8_counterexample :
    is_menu_payload c8MenuPayload = true ∧
    (route_payload emptyManager emptyStore c8MenuPayload "u" 100).1 = true ∧
    (route_payload emptyManager emptyStore c8MenuPayload "u" 100).2.2.match_rows
      ≠ [] := by decide

/-- Base-id extraction fails exactly when the map or provider section
is missing. -/
theorem extract_base_match_id_none (payload : Payload)
    (h : payload.map = none ∨ payload.provider = none) :
    extract_base_match_id payload = none := by
  unfold extract_base_match_id
  rcases h with hm | hp
  · rw [hm]
  · rw [hp]
    cases payload.map <;> rfl

/-- A payload with no map or no provider section. -/
def c8NoMapPayload : Payload :=
  { map := none
    provider := none
    round := none
    player := some { steamid := some "76561198000000001", name := some "A",
                     team := some "CT", activity := some "menu",
                     state := none, match_stats := none, weapons := some [] } }

/-- C8 (amended): a snapshot that lacks the map or the provider section
is rejected by routing: `route_payload` returns false and changes
neither the manager nor the store.  (The activity = menu check alone
does not prevent routing: it is only consulted when match-id extraction
has already failed, as the counterexample shows.) -/
theorem c8_no_map_or_provider_returns_false (m : ManagerState) (s : Store)
    (payload : Payload) (uuidStr : String) (now : Int)
    (h : payload.map = none ∨ payload.provider = none) :
    route_payload m s payload uuidStr now = (false, m, s) := by
  unfold route_payload
  rw [extract_base_match_id_none payload h]

/-- Witness for the amended C8 at a concrete menu payload with no map
section. -/
theorem c8_no_map_or_provider_returns_false_witness :
    (c8NoMapPayload.map = none ∨ c8NoMapPayload.provider = none) ∧
    route_payload emptyManager emptyStore c8NoMapPayload "u" 5
      = (false, emptyManager, emptyStore) :=
  ⟨Or.inl rfl,
   c8_no_map_or_provider_returns_false emptyManager emptyStore c8NoMapPayload "u" 5
     (Or.inl rfl)⟩
